import Mathlib

/-!
Verification of the emoji game engine (`main.js`, the advanced variant).

Shallow embedding conventions:
* JS numbers are modelled as exact rationals (`ℚ`); decimal literals such as
  `0.35` denote the same rational the source writes.
* `Math.random()` is modelled as an injected stream `rng : ℕ → ℚ`; every call
  site consumes one stream index, threaded explicitly in source order.
* `Math.hypot` and `Math.sin`/`Math.cos` are external math primitives; they are
  passed as function parameters and constrained in theorem hypotheses.
* Configuration tables (behaviors, element/layer/player/chaser defs) are data
  supplied to the core (spec section 6); they are collected in an `Env` record,
  and the shipped tables of `main.js` are embedded as `mainEnv`.
* A thrown JS `TypeError` (property access on `undefined`) is modelled as
  `Except.error ()`; a normal return is `Except.ok`.
-/

/-- `const rand = (a, b) => Math.random() * (b - a) + a;` with the consumed
random sample `r` made explicit. -/
def jsRand (r a b : ℚ) : ℚ := r * (b - a) + a

/-- `const clamp = (v, a, b) => Math.max(a, Math.min(b, v));` -/
def clamp (v a b : ℚ) : ℚ := max a (min b v)

/-- `const eventThisFrame = (pPerSec, dtMs) => Math.random() < (pPerSec * dtMs) / 1000;`
with the consumed random sample `r` made explicit. -/
def eventThisFrame (r pPerSec dtMs : ℚ) : Bool := r < pPerSec * dtMs / 1000

/-- `Math.sign` (on non-NaN input): -1, 0 or 1. -/
def jsSign (x : ℚ) : ℚ := if 0 < x then 1 else if x < 0 then -1 else 0

/-- `Math.PI` is an IEEE double, hence an exact rational. -/
def jsPI : ℚ := 884279719003555 / 281474976710656

/-- A `min`/`max` pair as used throughout the config tables. -/
structure QRange where
  min : ℚ
  max : ℚ
deriving DecidableEq

/-- The `events` block of a `MovementBehavior`. -/
structure BehaviorEvents where
  changeSpeedPPerSec : ℚ
  accelP : ℚ
  accelFactor : QRange
  decelFactor : QRange
  pausePPerSec : ℚ
  pauseMs : QRange
  turnBackPPerSec : ℚ
deriving DecidableEq

/-- The `jitter` block of a `MovementBehavior` or chaser def. -/
structure BehaviorJitter where
  ampX : ℚ
  ampY : ℚ
  freqHz : QRange
deriving DecidableEq

/-- The `bounds` block of a `MovementBehavior`. -/
structure BehaviorBounds where
  turnBackAtEdgeP : ℚ
  marginFactor : ℚ
deriving DecidableEq

/-- A `MovementBehavior` entry of the `Behaviors` table. -/
structure MovementBehavior where
  spawnFromLeftP : ℚ
  speed : QRange
  events : BehaviorEvents
  jitter : BehaviorJitter
  bounds : BehaviorBounds
  ttlMs : ℚ
deriving DecidableEq

/-- A `MobileElements` table entry: emoji, fontSize, spawn rate, behavior key. -/
structure MobileElementDef where
  emoji : String
  fontSize : ℚ
  ratePerSec : ℚ
  behavior : String
deriving DecidableEq

/-- A `FixedElements` table entry. -/
structure FixedElementDef where
  emoji : String
  fontSize : ℚ
  probability : ℚ
  stackable : Bool
  widthPx : ℚ
deriving DecidableEq

/-- A `Layers` table entry: name, nominal band height, mobile and fixed keys. -/
structure LayerDef where
  name : String
  height : Option ℚ
  mobiles : List String
  fixed : List String
deriving DecidableEq

/-- A `Players` table entry. -/
structure PlayerDef where
  emoji : String
  fontSize : ℚ
deriving DecidableEq

/-- A `Chasers` table entry. -/
structure ChaserDef where
  emoji : String
  fontSize : ℚ
  speed : ℚ
  jitter : BehaviorJitter
  arriveRadius : ℚ
deriving DecidableEq

/-- A `GameDef.levels` entry: duration, player key, optional chaser key,
(layer key, z) pairs. -/
structure LevelDef where
  name : String
  durationMs : ℚ
  player : String
  chaser : Option String
  layers : List (String × ℚ)
deriving DecidableEq

/-- The viewport query result: current drawable width and height. -/
structure Viewport where
  w : ℚ
  h : ℚ
deriving DecidableEq

/-- A band's vertical extent, `{ yTop, yBottom }`. -/
structure Band where
  yTop : ℚ
  yBottom : ℚ
deriving DecidableEq

/-- A horizontal footprint segment `{x0, x1}` of the `occupied` list in
`placeFixedInBand`. -/
structure Seg where
  x0 : ℚ
  x1 : ℚ
deriving DecidableEq

/-- A runtime fixed instance (the object literal pushed by `placeFixedInBand`,
minus the constant `type: "fixed"` tag, which is carried by `Instance`). -/
structure FixedInstance where
  key : String
  emoji : String
  fontSize : ℚ
  x : ℚ
  y : ℚ
  tMs : ℚ
deriving DecidableEq

/-- A runtime mobile instance (the object literal of `createMobileInstance`). -/
structure MobileInstance where
  key : String
  emoji : String
  fontSize : ℚ
  x : ℚ
  y : ℚ
  vx : ℚ
  pausedMs : ℚ
  behavior : MovementBehavior
  tMs : ℚ
  ttlMs : ℚ
  jitterFreq : ℚ
  jitterPhaseX : ℚ
  jitterPhaseY : ℚ
deriving DecidableEq

/-- The runtime player instance of `createPlayer`. -/
structure PlayerInstance where
  emoji : String
  fontSize : ℚ
  x : ℚ
  y : ℚ
  tMs : ℚ
  vx : ℚ
deriving DecidableEq

/-- The runtime chaser instance of `createChaser`. -/
structure ChaserInstance where
  emoji : String
  fontSize : ℚ
  x : ℚ
  y : ℚ
  speed : ℚ
  arriveRadius : ℚ
  tMs : ℚ
  vx : ℚ
  jitter : BehaviorJitter
  jitterFreq : ℚ
  jitterPhaseX : ℚ
  jitterPhaseY : ℚ
deriving DecidableEq

/-- An element of a layer's `instances` array (`type: "fixed" | "mobile"`). -/
inductive Instance where
  | fixed : FixedInstance → Instance
  | mobile : MobileInstance → Instance
deriving DecidableEq

/-- The configuration tables the engine closes over (spec section 6 treats
them as plain data supplied to the core). -/
structure Env where
  behaviors : String → Option MovementBehavior
  mobileElements : String → Option MobileElementDef
  fixedElements : String → Option FixedElementDef
  layers : String → Option LayerDef
  players : String → Option PlayerDef
  chasers : String → Option ChaserDef

/-- The `Behaviors.traffic` entry. -/
def trafficBehavior : MovementBehavior where
  spawnFromLeftP := 0.5
  speed := ⟨90, 280⟩
  events := ⟨0.35, 0.55, ⟨1.05, 1.28⟩, ⟨0.75, 0.95⟩, 0.12, ⟨250, 1100⟩, 0.08⟩
  jitter := ⟨0.8, 1.8, ⟨6, 12⟩⟩
  bounds := ⟨0.55, 2.0⟩
  ttlMs := 22000

/-- The `Behaviors.personWalk` entry. -/
def personWalkBehavior : MovementBehavior where
  spawnFromLeftP := 0.5
  speed := ⟨35, 95⟩
  events := ⟨0.22, 0.50, ⟨1.03, 1.14⟩, ⟨0.82, 0.97⟩, 0.18, ⟨350, 2000⟩, 0.05⟩
  jitter := ⟨0.35, 1.25, ⟨2.0, 4.0⟩⟩
  bounds := ⟨0.75, 2.0⟩
  ttlMs := 30000

/-- The `Behaviors.floaty` entry. -/
def floatyBehavior : MovementBehavior where
  spawnFromLeftP := 0.5
  speed := ⟨15, 90⟩
  events := ⟨0.12, 0.5, ⟨1.02, 1.12⟩, ⟨0.82, 0.98⟩, 0.05, ⟨200, 900⟩, 0.03⟩
  jitter := ⟨0.5, 1.4, ⟨3, 7⟩⟩
  bounds := ⟨0.35, 2.0⟩
  ttlMs := 26000

/-- The `Behaviors` table. -/
def behaviorsTable : List (String × MovementBehavior) :=
  [("traffic", trafficBehavior), ("personWalk", personWalkBehavior), ("floaty", floatyBehavior)]

/-- The `MobileElements` table.  The source object literal repeats the keys
`car` (twice, with identical values) and `drone` (fourteen times); JS object
semantics keep the last binding for a repeated key, so the list holds each
key once with its final value. -/
def mobileElementsTable : List (String × MobileElementDef) :=
  [ ("wbike", ⟨"🚴‍♀️", 32, 1.2, "traffic"⟩)
  , ("pwalk", ⟨"🚶", 32, 1.2, "traffic"⟩)
  , ("pwalk2", ⟨"🚶🏾", 32, 1.2, "traffic"⟩)
  , ("car", ⟨"🚗", 32, 1.2, "traffic"⟩)
  , ("rickshaw", ⟨"🛺", 32, 1.2, "traffic"⟩)
  , ("ambulance", ⟨"🚑", 32, 1.2, "traffic"⟩)
  , ("minibus", ⟨"🚐", 32, 1.2, "traffic"⟩)
  , ("fireengine", ⟨"🚒", 32, 1.2, "traffic"⟩)
  , ("lorry", ⟨"🚛", 32, 1.2, "traffic"⟩)
  , ("delivery", ⟨"🚚", 32, 1.2, "traffic"⟩)
  , ("taxi", ⟨"🚕", 32, 1.2, "traffic"⟩)
  , ("racing", ⟨"🏎️", 32, 1.2, "traffic"⟩)
  , ("utility", ⟨"🚙", 32, 1.2, "traffic"⟩)
  , ("tractor", ⟨"🚜", 32, 1.2, "traffic"⟩)
  , ("police", ⟨"🚓", 32, 1.2, "traffic"⟩)
  , ("bus", ⟨"🚌", 36, 0.5, "traffic"⟩)
  , ("drone", ⟨"🛸", 28, 0.7, "floaty"⟩)
  , ("bird", ⟨"🕊️", 28, 0.9, "floaty"⟩) ]

/-- The `FixedElements` table. -/
def fixedElementsTable : List (String × FixedElementDef) :=
  [ ("factory", ⟨"🏭", 64, 0.35, false, 140⟩)
  , ("stadium", ⟨"🏟️", 64, 0.35, false, 140⟩)
  , ("classicalb", ⟨"🏛️", 64, 0.35, false, 140⟩)
  , ("hut", ⟨"🛖", 64, 0.35, false, 140⟩)
  , ("houses", ⟨"🏘️", 64, 0.35, false, 140⟩)
  , ("dhouse", ⟨"🏚️", 64, 0.35, false, 140⟩)
  , ("house", ⟨"🏠", 64, 0.35, false, 140⟩)
  , ("ghouse", ⟨"🏡", 64, 0.35, false, 140⟩)
  , ("store", ⟨"🏪", 64, 0.35, false, 140⟩)
  , ("school", ⟨"🏫", 64, 0.35, false, 140⟩)
  , ("dstore", ⟨"🏬", 64, 0.35, false, 140⟩)
  , ("jcastle", ⟨"🏯", 64, 0.35, false, 140⟩)
  , ("castle", ⟨"🏰", 64, 0.35, false, 140⟩)
  , ("wchurch", ⟨"💒", 64, 0.35, false, 140⟩)
  , ("ttower", ⟨"🗼", 64, 0.35, false, 140⟩)
  , ("church", ⟨"⛪", 64, 0.35, false, 140⟩)
  , ("mosque", ⟨"🕌", 64, 0.35, false, 140⟩)
  , ("htemple", ⟨"🛕", 64, 0.35, false, 140⟩)
  , ("synagogue", ⟨"🕍", 64, 0.35, false, 140⟩)
  , ("shrine", ⟨"⛩️", 64, 0.35, false, 140⟩)
  , ("fountain", ⟨"⛲", 64, 0.35, false, 140⟩)
  , ("tent", ⟨"⛺", 64, 0.35, false, 140⟩)
  , ("fwheel", ⟨"🎡", 64, 0.35, false, 140⟩)
  , ("circus", ⟨"🎪", 64, 0.35, false, 140⟩)
  , ("moai", ⟨"🗿", 64, 0.35, false, 140⟩)
  , ("scmountain", ⟨"🏔️", 64, 0.35, false, 140⟩)
  , ("mountain", ⟨"⛰️", 64, 0.35, false, 140⟩)
  , ("volcano", ⟨"🌋", 64, 0.35, false, 140⟩)
  , ("fujisan", ⟨"🗻", 64, 0.35, false, 140⟩)
  , ("hotel", ⟨"🏨", 64, 0.35, false, 140⟩)
  , ("bank", ⟨"🏦", 64, 0.35, false, 140⟩)
  , ("hostpital", ⟨"🏥", 64, 0.35, false, 140⟩)
  , ("poffice", ⟨"🏣", 64, 0.35, false, 140⟩)
  , ("office", ⟨"🏢", 60, 0.30, false, 120⟩)
  , ("dtree", ⟨"🌳", 56, 0.65, true, 70⟩)
  , ("smushroom", ⟨"🍄", 64, 0.35, false, 140⟩)
  , ("gmushroom", ⟨"🍄", 64, 0.35, false, 140⟩)
  , ("etree", ⟨"🌲", 64, 0.35, false, 140⟩)
  , ("ptree", ⟨"🌴", 64, 0.35, false, 140⟩)
  , ("cactus", ⟨"🌵", 64, 0.35, false, 140⟩)
  , ("ltree", ⟨"🪾", 64, 0.35, false, 140⟩)
  , ("rock", ⟨"🪨", 64, 0.35, false, 140⟩)
  , ("log", ⟨"🪵", 64, 0.35, false, 140⟩)
  , ("playground", ⟨"🛝", 64, 0.35, false, 140⟩)
  , ("cloud", ⟨"☁️", 52, 0.65, true, 90⟩) ]

/-- The `Layers` table.  Note that `city` and `woods` reference fixed keys
`building` and `tree` that have no entry in `FixedElements`; the skip policy
of `placeFixedInBand` is relied upon for them. -/
def layersTable : List (String × LayerDef) :=
  [ ("sky", ⟨"sky", some 220, ["drone", "bird"], ["cloud"]⟩)
  , ("mountains", ⟨"mountains", some 260, [], ["mountain"]⟩)
  , ("city", ⟨"city", some 260, ["car", "pwalk"], ["building", "factory", "tree"]⟩)
  , ("woods", ⟨"woods", some 260, [], ["building", "factory", "tree"]⟩)
  , ("road", ⟨"road", some 320, ["car", "bus"], ["tree"]⟩) ]

/-- The `Players` table. -/
def playersTable : List (String × PlayerDef) :=
  [("runner", ⟨"🧍", 34⟩), ("ninja", ⟨"🥷", 34⟩), ("robot", ⟨"🤖", 34⟩)]

/-- The `Chasers` table. -/
def chasersTable : List (String × ChaserDef) :=
  [ ("ghost", ⟨"👻", 34, 160, ⟨0.5, 0.5, ⟨4, 9⟩⟩, 10⟩)
  , ("trex", ⟨"🦖", 34, 190, ⟨0.4, 0.4, ⟨5, 10⟩⟩, 12⟩) ]

/-- The `GameDef.levels` list. -/
def gameDefLevels : List LevelDef :=
  [ ⟨"Level 1", 12000, "runner", none, [("sky", 10), ("city", 20), ("road", 30)]⟩
  , ⟨"Level 2", 15000, "ninja", some "ghost", [("sky", 10), ("city", 20), ("road", 30)]⟩
  , ⟨"Level 3", 18000, "robot", some "trex", [("sky", 10), ("city", 20), ("road", 30)]⟩ ]

/-- The environment holding the shipped configuration tables of `main.js`. -/
def mainEnv : Env where
  behaviors := fun k => behaviorsTable.lookup k
  mobileElements := fun k => mobileElementsTable.lookup k
  fixedElements := fun k => fixedElementsTable.lookup k
  layers := fun k => layersTable.lookup k
  players := fun k => playersTable.lookup k
  chasers := fun k => chasersTable.lookup k

/-- `resolveBehavior(ref)`: a falsy ref (the empty string) gives `null`,
otherwise the `Behaviors` table is consulted (the tables only ever hold
string refs, so the pass-through object branch cannot trigger). -/
def resolveBehavior (env : Env) (ref : String) : Option MovementBehavior :=
  if ref = "" then none else env.behaviors ref

/-- The observable effect of one glyph-drawing call: which glyph, where, at
which size, and whether the horizontal mirror transform was applied. -/
structure DrawCmd where
  emoji : String
  x : ℚ
  y : ℚ
  fontSize : ℚ
  mirrored : Bool
deriving DecidableEq

/-- `drawEmoji(ctx, emoji, x, y, fontSize)`: plain, unmirrored draw. -/
def drawEmoji (emoji : String) (x y fontSize : ℚ) : DrawCmd :=
  ⟨emoji, x, y, fontSize, false⟩

/-- `drawEmojiFacing`: `facing !== 1` draws unmirrored; `facing === 1`
mirrors (translate by `x + fontSize` then scale X by -1, summarized as a
mirrored command anchored at the translated coordinate). -/
def drawEmojiFacing (emoji : String) (x y fontSize : ℚ) (facing : ℤ) : DrawCmd :=
  if facing ≠ 1 then drawEmoji emoji x y fontSize
  else ⟨emoji, x + fontSize, y, fontSize, true⟩

/-- `jitterOffset(tMs, jitter, freqHz, phaseX, phaseY)` with `Math.sin` and
`Math.cos` injected as `sinF`/`cosF`. -/
def jitterOffset (sinF cosF : ℚ → ℚ) (tMs : ℚ) (jitter : Option BehaviorJitter)
    (freqHz phaseX phaseY : ℚ) : ℚ × ℚ :=
  match jitter with
  | none => (0, 0)
  | some j =>
    let t := tMs / 1000
    (sinF (t * freqHz * jsPI * 2 + phaseX) * j.ampX,
     cosF (t * freqHz * jsPI * 2 + phaseY) * j.ampY)

/-- The inner `for (let a = 0; a < maxAttempts; a++)` loop of
`placeFixedInBand`: sample an x; a stackable type accepts it immediately;
a non-stackable type accepts only if its segment overlaps no previously
accepted segment, pushing the segment on success.  Returns
`(ok, x, occupied, next rng index)`. -/
def placeAttempts (rng : ℕ → ℚ) (attempts : ℕ) (stackable : Bool) (widthPx : ℚ)
    (vpw : ℚ) (occupied : List Seg) (i : ℕ) : Bool × ℚ × List Seg × ℕ :=
  match attempts with
  | 0 => (false, 0, occupied, i)
  | a + 1 =>
    let x := jsRand (rng i) 0 (max 0 (vpw - widthPx))
    if stackable then (true, x, occupied, i + 1)
    else
      let seg : Seg := ⟨x, x + widthPx⟩
      let overlaps := occupied.any fun s => !(decide (seg.x1 ≤ s.x0) || decide (seg.x0 ≥ s.x1))
      if overlaps then placeAttempts rng a stackable widthPx vpw occupied (i + 1)
      else (true, x, occupied ++ [seg], i + 1)

/-- The per-key body of `placeFixedInBand`'s `for (const key of fixedKeys)`
loop, threading the `occupied` list and the rng index; returns the placed
instances in push order together with the final `occupied` and rng index. -/
def placeFixedLoop (env : Env) (rng : ℕ → ℚ) (band : Band) (vp : Viewport) :
    List String → List Seg → ℕ → List FixedInstance × List Seg × ℕ
  | [], occupied, i => ([], occupied, i)
  | key :: keys, occupied, i =>
    match env.fixedElements key with
    | none => placeFixedLoop env rng band vp keys occupied i
    | some d =>
      if d.probability ≤ rng i then placeFixedLoop env rng band vp keys occupied (i + 1)
      else
        let (ok, x, occupied1, i1) :=
          placeAttempts rng 22 d.stackable d.widthPx vp.w occupied (i + 1)
        if !ok then placeFixedLoop env rng band vp keys occupied1 i1
        else
          let y := jsRand (rng i1) band.yTop (max band.yTop (band.yBottom - d.fontSize))
          let (rest, occupied2, i2) := placeFixedLoop env rng band vp keys occupied1 (i1 + 1)
          (⟨key, d.emoji, d.fontSize, x, y, 0⟩ :: rest, occupied2, i2)

/-- `placeFixedInBand(fixedKeys, band, vp)`: returns the placed instances and
the next rng index.  `maxAttempts = 22`; an unknown key is skipped by
`if (!def) continue`. -/
def placeFixedInBand (env : Env) (rng : ℕ → ℚ) (fixedKeys : List String)
    (band : Band) (vp : Viewport) (i : ℕ) : List FixedInstance × ℕ :=
  let (placed, _, i1) := placeFixedLoop env rng band vp fixedKeys [] i
  (placed, i1)

/-- `createMobileInstance(mobileKey, band, vp)`: `null` (modelled `ok none`)
for an unknown mobile key; a `TypeError` (modelled `error ()`) when the
behavior reference does not resolve, because `behavior.speed.min` is read
from `undefined`/`null`.  Consumes rng samples in source order: spawn side,
base speed, y, jitter frequency, jitter phases. -/
def createMobileInstance (env : Env) (rng : ℕ → ℚ) (mobileKey : String)
    (band : Band) (vp : Viewport) (i : ℕ) :
    Except Unit (Option MobileInstance × ℕ) :=
  match env.mobileElements mobileKey with
  | none => .ok (none, i)
  | some d =>
    let behOpt := resolveBehavior env d.behavior
    let fromLeft := rng i < (match behOpt with
      | some b => b.spawnFromLeftP
      | none => 0.5)
    match behOpt with
    | none => .error ()
    | some b =>
      let dir : ℚ := if fromLeft then 1 else -1
      let fontSize := d.fontSize
      let baseSpeed := jsRand (rng (i + 1)) b.speed.min b.speed.max
      let vx := dir * baseSpeed
      let x := if fromLeft then -fontSize else vp.w + fontSize
      let y := jsRand (rng (i + 2)) band.yTop (max band.yTop (band.yBottom - fontSize))
      let freq := b.jitter.freqHz
      .ok (some
        { key := mobileKey, emoji := d.emoji, fontSize := fontSize
          x := x, y := y, vx := vx, pausedMs := 0
          behavior := b, tMs := 0, ttlMs := b.ttlMs
          jitterFreq := jsRand (rng (i + 3)) freq.min freq.max
          jitterPhaseX := jsRand (rng (i + 4)) 0 (jsPI * 2)
          jitterPhaseY := jsRand (rng (i + 5)) 0 (jsPI * 2) }, i + 6)

/-- Lines 1103-1106 of `updateMobile`: accumulate elapsed time, decrement
time-to-live. -/
def mobTick (it : MobileInstance) (dtMs : ℚ) : MobileInstance :=
  { it with tMs := it.tMs + dtMs, ttlMs := it.ttlMs - dtMs }

/-- The pause-lifecycle block of `updateMobile`: a running pause counts down;
otherwise a pause event may start one with a uniformly sampled duration. -/
def mobPause (rng : ℕ → ℚ) (it : MobileInstance) (dtMs : ℚ) (i : ℕ) :
    MobileInstance × ℕ :=
  if it.pausedMs > 0 then ({ it with pausedMs := it.pausedMs - dtMs }, i)
  else if eventThisFrame (rng i) it.behavior.events.pausePPerSec dtMs then
    let d := jsRand (rng (i + 1)) it.behavior.events.pauseMs.min it.behavior.events.pauseMs.max
    ({ it with pausedMs := d }, i + 2)
  else (it, i + 1)

/-- The body of a speed-change event: multiply the signed velocity by the
factor `f`, clamp the magnitude back into the behavior's speed bounds, and
restore the sign via `Math.sign(it.vx || 1)`. -/
def speedEventVx (b : MovementBehavior) (f vx : ℚ) : ℚ :=
  let v := vx * f
  let s := clamp |v| b.speed.min b.speed.max
  jsSign (if v = 0 then 1 else v) * s

/-- The speed-change block of `updateMobile` (runs only when not paused):
draw the event, then accelerate vs decelerate, then a factor from the
corresponding range. -/
def mobSpeed (rng : ℕ → ℚ) (it : MobileInstance) (dtMs : ℚ) (i : ℕ) :
    MobileInstance × ℕ :=
  let b := it.behavior
  if it.pausedMs ≤ 0 then
    if eventThisFrame (rng i) b.events.changeSpeedPPerSec dtMs then
      let accel := rng (i + 1) < b.events.accelP
      let f := if accel then jsRand (rng (i + 2)) b.events.accelFactor.min b.events.accelFactor.max
        else jsRand (rng (i + 2)) b.events.decelFactor.min b.events.decelFactor.max
      ({ it with vx := speedEventVx b f it.vx }, i + 3)
    else (it, i + 1)
  else (it, i)

/-- The U-turn block of `updateMobile` (runs only when not paused). -/
def mobTurn (rng : ℕ → ℚ) (it : MobileInstance) (dtMs : ℚ) (i : ℕ) :
    MobileInstance × ℕ :=
  if it.pausedMs ≤ 0 then
    if eventThisFrame (rng i) it.behavior.events.turnBackPPerSec dtMs then
      ({ it with vx := -it.vx }, i + 1)
    else (it, i + 1)
  else (it, i)

/-- The integration step of `updateMobile` (runs only when not paused). -/
def mobIntegrate (it : MobileInstance) (dtMs : ℚ) : MobileInstance :=
  if it.pausedMs ≤ 0 then { it with x := it.x + it.vx * (dtMs / 1000) } else it

/-- The boundary-policy block of `updateMobile`: beyond either edge by more
than the margin, either reverse and clamp back (with probability
`turnBackAtEdgeP`) or force the time-to-live to 0. -/
def mobBounds (rng : ℕ → ℚ) (it : MobileInstance) (vp : Viewport) (i : ℕ) :
    MobileInstance × ℕ :=
  let margin := it.fontSize * it.behavior.bounds.marginFactor
  let offLeft := it.x < -margin
  let offRight := it.x > vp.w + margin
  if offLeft ∨ offRight then
    if rng i < it.behavior.bounds.turnBackAtEdgeP then
      ({ it with vx := -it.vx, x := clamp it.x (-margin) (vp.w + margin) }, i + 1)
    else ({ it with ttlMs := 0 }, i + 1)
  else (it, i)

/-- `updateMobile(it, dtMs, vp)`: the per-frame advance, as the composition
of its source blocks in order. -/
def updateMobile (rng : ℕ → ℚ) (it : MobileInstance) (dtMs : ℚ) (vp : Viewport)
    (i : ℕ) : MobileInstance × ℕ :=
  let s1 := mobTick it dtMs
  let s2 := mobPause rng s1 dtMs i
  let s3 := mobSpeed rng s2.1 dtMs s2.2
  let s4 := mobTurn rng s3.1 dtMs s3.2
  let s5 := mobIntegrate s4.1 dtMs
  mobBounds rng s5 vp s4.2

/-- `drawMobile(ctx, it)`: jitter offset is added at draw time, and the
facing is `+1` (mirror) exactly when `it.vx > 0`. -/
def drawMobile (sinF cosF : ℚ → ℚ) (it : MobileInstance) : DrawCmd :=
  let off := jitterOffset sinF cosF it.tMs (some it.behavior.jitter)
    it.jitterFreq it.jitterPhaseX it.jitterPhaseY
  let facing : ℤ := if it.vx > 0 then 1 else -1
  drawEmojiFacing it.emoji (it.x + off.1) (it.y + off.2) it.fontSize facing

/-- `createPlayer(playerKey, vp)` after the table lookup has succeeded. -/
def createPlayer (p : PlayerDef) (vp : Viewport) : PlayerInstance :=
  { emoji := p.emoji, fontSize := p.fontSize, x := vp.w * 0.5, y := vp.h * 0.66
    tMs := 0, vx := 0 }

/-- `createChaser(chaserKey, vp)` after the table lookup has succeeded. -/
def createChaser (rng : ℕ → ℚ) (c : ChaserDef) (vp : Viewport) (i : ℕ) :
    ChaserInstance × ℕ :=
  let freq := c.jitter.freqHz
  ({ emoji := c.emoji, fontSize := c.fontSize, x := vp.w * 0.2, y := vp.h * 0.66
     speed := c.speed, arriveRadius := c.arriveRadius, tMs := 0, vx := 0
     jitter := c.jitter
     jitterFreq := jsRand (rng i) freq.min freq.max
     jitterPhaseX := jsRand (rng (i + 1)) 0 (jsPI * 2)
     jitterPhaseY := jsRand (rng (i + 2)) 0 (jsPI * 2) }, i + 3)

/-- `updateChaser(ch, player, dtMs)` with `Math.hypot` injected as `hypot`:
outside the arrival radius the chaser steps toward the player at
`speed * dtMs/1000` and records the horizontal displacement in `vx`; inside
it, the position is held and `vx` is set to exactly 0. -/
def updateChaser (hypot : ℚ → ℚ → ℚ) (ch : ChaserInstance)
    (player : PlayerInstance) (dtMs : ℚ) : ChaserInstance :=
  let ch := { ch with tMs := ch.tMs + dtMs }
  let dx := player.x - ch.x
  let dy := player.y - ch.y
  let dist := hypot dx dy
  if dist > ch.arriveRadius then
    let ux := dx / (if dist = 0 then 1 else dist)
    let uy := dy / (if dist = 0 then 1 else dist)
    let step := ch.speed * (dtMs / 1000)
    { ch with x := ch.x + ux * step, y := ch.y + uy * step, vx := ux * step }
  else
    { ch with vx := 0 }

/-- The state of a `RuntimeLayer`: the constructor fields plus the live
`instances` array. -/
structure RuntimeLayerState where
  name : String
  height : Option ℚ
  mobileKeys : List String
  fixedKeys : List String
  instances : List Instance
deriving DecidableEq

/-- `new RuntimeLayer(layerDef)`. -/
def mkRuntimeLayer (d : LayerDef) : RuntimeLayerState :=
  { name := d.name, height := d.height, mobileKeys := d.mobiles,
    fixedKeys := d.fixed, instances := [] }

/-- `RuntimeLayer.init(band, vp)`: seed the fixed instances once. -/
def layerInit (env : Env) (rng : ℕ → ℚ) (st : RuntimeLayerState) (band : Band)
    (vp : Viewport) (i : ℕ) : RuntimeLayerState × ℕ :=
  let (placed, i1) := placeFixedInBand env rng st.fixedKeys band vp i
  ({ st with instances := placed.map Instance.fixed }, i1)

/-- The spawn loop of `RuntimeLayer.update`: for each declared mobile key,
an unknown key is skipped (`if (!def) continue`), otherwise a spawn event is
drawn and on success the created instance is pushed.  Propagates the
`TypeError` of `createMobileInstance`. -/
def spawnLoop (env : Env) (rng : ℕ → ℚ) (band : Band) (vp : Viewport) (dtMs : ℚ) :
    List String → List Instance → ℕ → Except Unit (List Instance × ℕ)
  | [], acc, i => .ok (acc, i)
  | key :: keys, acc, i =>
    match env.mobileElements key with
    | none => spawnLoop env rng band vp dtMs keys acc i
    | some d =>
      if eventThisFrame (rng i) d.ratePerSec dtMs then
        match createMobileInstance env rng key band vp (i + 1) with
        | .error e => .error e
        | .ok (some inst, i1) => spawnLoop env rng band vp dtMs keys (acc ++ [Instance.mobile inst]) i1
        | .ok (none, i1) => spawnLoop env rng band vp dtMs keys acc i1
      else spawnLoop env rng band vp dtMs keys acc (i + 1)

/-- The update loop of `RuntimeLayer.update`: every instance gets
`it.tMs += dtMs`, and mobile instances additionally go through
`updateMobile`. -/
def updateInstances (rng : ℕ → ℚ) (dtMs : ℚ) (vp : Viewport) :
    List Instance → ℕ → List Instance × ℕ
  | [], i => ([], i)
  | inst :: rest, i =>
    match inst with
    | .fixed f =>
      let r := updateInstances rng dtMs vp rest i
      (.fixed { f with tMs := f.tMs + dtMs } :: r.1, r.2)
    | .mobile m =>
      let m1 := { m with tMs := m.tMs + dtMs }
      let r := updateMobile rng m1 dtMs vp i
      let r2 := updateInstances rng dtMs vp rest r.2
      (.mobile r.1 :: r2.1, r2.2)

/-- The cull filter of `RuntimeLayer.update`:
`it.type === "fixed" || it.ttlMs > 0`. -/
def keepInstance (inst : Instance) : Bool :=
  match inst with
  | .fixed _ => true
  | .mobile m => decide (m.ttlMs > 0)

/-- `RuntimeLayer.update(dtMs, band, vp)`: spawn, then advance every
instance (including the ones just spawned), then cull expired mobiles. -/
def layerUpdate (env : Env) (rng : ℕ → ℚ) (st : RuntimeLayerState) (dtMs : ℚ)
    (band : Band) (vp : Viewport) (i : ℕ) :
    Except Unit (RuntimeLayerState × ℕ) := do
  let (withSpawns, i1) ← spawnLoop env rng band vp dtMs st.mobileKeys st.instances i
  let (updated, i2) := updateInstances rng dtMs vp withSpawns i1
  .ok ({ st with instances := updated.filter keepInstance }, i2)

/-- JS `Map.set` on an association list: replace in place if the key is
present, else append. -/
def mapSet (m : List (String × Band)) (k : String) (v : Band) : List (String × Band) :=
  match m with
  | [] => [(k, v)]
  | (k1, v1) :: rest => if k1 = k then (k, v) :: rest else (k1, v1) :: mapSet rest k v

/-- `this.bands.get(layer.name) ?? { yTop: 0, yBottom: vp.h }`: the band a
frame's layer update receives. -/
def levelBandFor (bands : List (String × Band)) (name : String) (vp : Viewport) : Band :=
  (bands.lookup name).getD ⟨0, vp.h⟩

/-- The `this.layerRefs.map(...)` of `RuntimeLevel.start`:
`new RuntimeLayer(Layers[layer])` reads `.name` of the lookup result, so an
unresolved layer key is a `TypeError`, not a skip. -/
def resolveLayers (env : Env) : List (String × ℚ) → Except Unit (List (ℚ × RuntimeLayerState))
  | [] => .ok []
  | (name, z) :: rest =>
    match env.layers name with
    | none => .error ()
    | some d => (resolveLayers env rest).map fun ls => (z, mkRuntimeLayer d) :: ls

/-- The band-computation fold of `RuntimeLevel.start`: walk the sorted layers
bottom-up from `yCursor = vp.h`, give each a slice of its nominal height
(defaulting to `Math.floor(vp.h / layers.length)`), record it in the bands
map and seed the layer's fixed instances.  `n` is `this.layers.length`. -/
def computeBandsInit (env : Env) (rng : ℕ → ℚ) (vp : Viewport) (n : ℚ) :
    List (ℚ × RuntimeLayerState) → ℚ → List (String × Band) → ℕ →
    List (ℚ × RuntimeLayerState) × List (String × Band) × ℕ
  | [], _, bands, i => ([], bands, i)
  | (z, layer) :: rest, yCursor, bands, i =>
    let h := layer.height.getD ((vp.h / n).floor : ℚ)
    let yBottom := yCursor
    let yTop := max 0 (yBottom - h)
    let band : Band := ⟨yTop, yBottom⟩
    let bands1 := mapSet bands layer.name band
    let (layer1, i1) := layerInit env rng layer band vp i
    let (rest1, bands2, i2) := computeBandsInit env rng vp n rest yTop bands1 i1
    ((z, layer1) :: rest1, bands2, i2)

/-- Stable insertion of a layer ref into a list sorted by ascending z: the
new element goes after every element whose z is `≤` its own. -/
def insertByZ (p : String × ℚ) : List (String × ℚ) → List (String × ℚ)
  | [] => [p]
  | q :: rest => if q.2 ≤ p.2 then q :: insertByZ p rest else p :: q :: rest

/-- `[...levelDef.layers].sort((a, b) => a.z - b.z)`: JS `Array.sort` with a
consistent comparator is a stable ascending sort by z; any stable sort
produces the same list, modelled here by stable insertion sort. -/
def sortByZ (l : List (String × ℚ)) : List (String × ℚ) :=
  l.foldl (fun acc p => insertByZ p acc) []

/-- The state of a `RuntimeLevel` after `start` has run: sorted layers with
their z, the cached bands map, elapsed time, player, optional chaser. -/
structure RuntimeLevelState where
  name : String
  durationMs : ℚ
  elapsedMs : ℚ
  layers : List (ℚ × RuntimeLayerState)
  bands : List (String × Band)
  player : PlayerInstance
  chaser : Option ChaserInstance
deriving DecidableEq

/-- `new RuntimeLevel(levelDef)` followed by `start(vp)`: sort the layer refs
by z (JS `Array.sort` is stable; modelled by `sortByZ`), resolve
them (a bad layer key throws), compute bands bottom-up once and seed fixed
instances, then create the player (a bad player key throws) and the optional
chaser (a bad chaser key throws). -/
def levelStart (env : Env) (rng : ℕ → ℚ) (d : LevelDef) (vp : Viewport) (i : ℕ) :
    Except Unit (RuntimeLevelState × ℕ) := do
  let refs := sortByZ d.layers
  let layers0 ← resolveLayers env refs
  let n : ℚ := layers0.length
  let (layers1, bands, i1) := computeBandsInit env rng vp n layers0 vp.h [] i
  let player ← match env.players d.player with
    | none => .error ()
    | some p => .ok (createPlayer p vp)
  let (chaser, i2) ← match d.chaser with
    | none => Except.ok (none, i1)
    | some ck => match env.chasers ck with
      | none => .error ()
      | some c =>
        let (ch, i3) := createChaser rng c vp i1
        Except.ok (some ch, i3)
  .ok ({ name := d.name, durationMs := d.durationMs, elapsedMs := 0,
         layers := layers1, bands := bands, player := player, chaser := chaser }, i2)

/-- The per-layer loop of `RuntimeLevel.update`: each layer is updated with
the band looked up in the cached `bands` map (falling back to the whole
viewport for a missing name). -/
def updateLayersLoop (env : Env) (rng : ℕ → ℚ) (dtMs : ℚ)
    (bands : List (String × Band)) (vp : Viewport) :
    List (ℚ × RuntimeLayerState) → ℕ → Except Unit (List (ℚ × RuntimeLayerState) × ℕ)
  | [], i => .ok ([], i)
  | (z, layer) :: rest, i => do
    let band := levelBandFor bands layer.name vp
    let (layer1, i1) ← layerUpdate env rng layer dtMs band vp i
    let (rest1, i2) ← updateLayersLoop env rng dtMs bands vp rest i1
    .ok ((z, layer1) :: rest1, i2)

/-- `RuntimeLevel.update(dtMs, vp)`: accumulate elapsed time, update every
layer against its cached band, tick the player, steer the chaser, and report
completion exactly when `elapsedMs >= durationMs`. -/
def levelUpdate (env : Env) (hypot : ℚ → ℚ → ℚ) (rng : ℕ → ℚ)
    (st : RuntimeLevelState) (dtMs : ℚ) (vp : Viewport) (i : ℕ) :
    Except Unit (RuntimeLevelState × ℕ × Bool) := do
  let elapsed := st.elapsedMs + dtMs
  let (layers1, i1) ← updateLayersLoop env rng dtMs st.bands vp st.layers i
  let player1 := { st.player with tMs := st.player.tMs + dtMs }
  let chaser1 := st.chaser.map fun ch => updateChaser hypot ch player1 dtMs
  let st1 := { st with elapsedMs := elapsed, layers := layers1, player := player1, chaser := chaser1 }
  .ok (st1, i1, decide (elapsed ≥ st.durationMs))

/-- The controller's per-frame delta: `const dtMs = Math.min(40, ts - this._lastTs)`
(the clamp that bounds every `dtMs` the level and chaser updates ever see). -/
def tickClampDt (ts lastTs : ℚ) : ℚ := min 40 (ts - lastTs)

/-- The negation of the overlap test of `placeFixedInBand`:
`seg.x1 <= s.x0 || seg.x0 >= s.x1`. -/
def segDisjoint (s t : Seg) : Prop := s.x1 ≤ t.x0 ∨ s.x0 ≥ t.x1

/-- The footprint segment a placed fixed instance occupies, recovered from
its key's table entry (placed instances always have one). -/
def fixedSeg (env : Env) (f : FixedInstance) : Seg :=
  match env.fixedElements f.key with
  | some d => ⟨f.x, f.x + d.widthPx⟩
  | none => ⟨f.x, f.x⟩

/-- Whether a placed fixed instance's type is non-stackable. -/
def fixedNonStackable (env : Env) (f : FixedInstance) : Bool :=
  match env.fixedElements f.key with
  | some d => !d.stackable
  | none => false

/-- The pairwise relation claimed for the output of `placeFixedInBand`:
two non-stackable instances have disjoint footprints. -/
def nonStackDisjoint (env : Env) (a b : FixedInstance) : Prop :=
  fixedNonStackable env a = true → fixedNonStackable env b = true →
    segDisjoint (fixedSeg env a) (fixedSeg env b)

/-- The fixed instances of an instance list, in order. -/
def fixedParts : List Instance → List FixedInstance
  | [] => []
  | .fixed f :: rest => f :: fixedParts rest
  | .mobile _ :: rest => fixedParts rest

/-- A random stream that always yields 1/2. -/
def halfRng : ℕ → ℚ := fun _ => 1 / 2

/-- A random stream that always yields 0. -/
def zeroRng : ℕ → ℚ := fun _ => 0

/-- An environment whose only mobile element has a dangling behavior
reference (configuration tables are external data, spec section 6). -/
def c1Env : Env where
  behaviors := fun _ => none
  mobileElements := fun k => if k = "ghostcar" then some ⟨"🚗", 32, 1.2, "nope"⟩ else none
  fixedElements := fun _ => none
  layers := fun _ => none
  players := fun _ => none
  chasers := fun _ => none

/-- A level def referencing a layer key absent from the shipped `Layers`
table. -/
def c1BadLevel : LevelDef := ⟨"Bad", 1000, "runner", none, [("missing", 10)]⟩

/-- A level def used to instantiate the unresolved-layer-key conclusion. -/
def c1WitnessLevel : LevelDef := ⟨"B", 1000, "p", none, [("missing", 10)]⟩

/-- An environment with a single non-stackable fixed type of placement
probability 1.0 and footprint wider than the test viewport. -/
def c2Env : Env where
  behaviors := fun _ => none
  mobileElements := fun _ => none
  fixedElements := fun k => if k = "wide" then some ⟨"🏭", 64, 1, false, 140⟩ else none
  layers := fun _ => none
  players := fun _ => none
  chasers := fun _ => none

/-- A mobile instance 10 ms into a pause with 5 ms of time-to-live left. -/
def c3Mobile : MobileInstance where
  key := "car"
  emoji := "🚗"
  fontSize := 32
  x := 200
  y := 100
  vx := 100
  pausedMs := 10
  behavior := trafficBehavior
  tMs := 0
  ttlMs := 5
  jitterFreq := 8
  jitterPhaseX := 0
  jitterPhaseY := 0

/-- A layer state owning one fixed instance, used to exercise the cull pass. -/
def c3Layer : RuntimeLayerState :=
  ⟨"mountains", some 260, [], ["mountain"], [.fixed ⟨"mountain", "⛰️", 64, 120, 800, 0⟩]⟩

/-- A single-layer level def over the shipped tables. -/
def c4LevelDef : LevelDef := ⟨"T", 5000, "runner", none, [("mountains", 10)]⟩

/-- The level state `RuntimeLevel.start` builds for `c4LevelDef` at a
1000-pixel-tall viewport (the `error` branch is unreachable). -/
def c4State : RuntimeLevelState :=
  match levelStart mainEnv halfRng c4LevelDef ⟨800, 1000⟩ 0 with
  | .ok (st, _) => st
  | .error _ => ⟨"", 0, 0, [], [], ⟨"", 0, 0, 0, 0, 0⟩, none⟩

/-- A running level of duration 1000 ms (no layers, no chaser). -/
def c5Level : RuntimeLevelState where
  name := "Test"
  durationMs := 1000
  elapsedMs := 0
  layers := []
  bands := []
  player := createPlayer ⟨"🧍", 34⟩ ⟨800, 600⟩
  chaser := none

/-- Feed `c5Level` `n` consecutive updates of 100 ms each, collecting the
per-update completion flags. -/
def c5Steps : ℕ → Except Unit ((RuntimeLevelState × ℕ) × List Bool)
  | 0 => .ok ((c5Level, 0), [])
  | n + 1 => do
    let (p, flags) ← c5Steps n
    let (st1, i1, e) ← levelUpdate mainEnv (fun _ _ => 0) halfRng p.1 100 ⟨800, 600⟩ p.2
    .ok ((st1, i1), flags ++ [e])

/-- The completion flags of ten consecutive 100 ms updates of `c5Level`. -/
def c5TenFlags : List Bool :=
  match c5Steps 10 with
  | .ok (_, flags) => flags
  | .error _ => []

/-- A `Math.hypot` table adequate for the 9-12-15 pursuit triangle and its
post-step rescaling. -/
def c7Hypot : ℚ → ℚ → ℚ := fun _ b => if b = 12 then 15 else 43 / 5

/-- A chaser 15 pixels away from the player, outside its 12-pixel arrival
radius, at the ghost's speed of 160. -/
def c7Chaser : ChaserInstance where
  emoji := "👻"
  fontSize := 34
  x := 0
  y := 0
  speed := 160
  arriveRadius := 12
  tMs := 0
  vx := 0
  jitter := ⟨0.5, 0.5, ⟨4, 9⟩⟩
  jitterFreq := 5
  jitterPhaseX := 0
  jitterPhaseY := 0

/-- A stationary player at (9, 12). -/
def c7Player : PlayerInstance := ⟨"🧍", 34, 9, 12, 0, 0⟩

/-- A layer state owning one fixed instance and the road layer's mobile
keys. -/
def c10Layer : RuntimeLayerState :=
  ⟨"road", some 320, ["car", "bus"], ["tree"], [.fixed ⟨"dtree", "🌳", 56, 100, 400, 50⟩]⟩

/-- C8: For every mobile instance at draw time, the glyph is drawn mirrored
about its anchor if and only if the instance's horizontal velocity is
strictly positive; an instance with zero or negative velocity is always
drawn unmirrored. -/
theorem drawMobile_mirrored_iff_vx_pos (sinF cosF : ℚ → ℚ) (it : MobileInstance) :
    ((drawMobile sinF cosF it).mirrored = true) ↔ 0 < it.vx := by
  unfold drawMobile drawEmojiFacing drawEmoji
  by_cases h : 0 < it.vx
  · simp [h]
  · simp [h]

lemma clamp_idem (v a b : ℚ) : clamp (clamp v a b) a b = clamp v a b := by
  unfold clamp
  rcases le_total a b with h | h <;>
    rcases le_total v b with h1 | h1 <;>
      rcases le_total a v with h2 | h2 <;>
        simp [min_def, max_def, *]

lemma speedEventVx_step (b : MovementBehavior) (f v : ℚ)
    (hmin : 0 < b.speed.min) (hle : b.speed.min ≤ b.speed.max)
    (hlo : b.speed.min ≤ |v|) (hf : 0 < f) :
    (b.speed.min ≤ |speedEventVx b f v| ∧ |speedEventVx b f v| ≤ b.speed.max) ∧
      jsSign (speedEventVx b f v) = jsSign v := by
  have hv : v ≠ 0 := by
    intro h
    rw [h] at hlo
    simp at hlo
    linarith
  have hw : v * f ≠ 0 := mul_ne_zero hv (ne_of_gt hf)
  have hs_lo : b.speed.min ≤ clamp |v * f| b.speed.min b.speed.max := le_max_left _ _
  have hs_hi : clamp |v * f| b.speed.min b.speed.max ≤ b.speed.max :=
    max_le hle (min_le_left _ _)
  have hs_pos : 0 < clamp |v * f| b.speed.min b.speed.max := lt_of_lt_of_le hmin hs_lo
  have hdef : speedEventVx b f v =
      jsSign (if v * f = 0 then 1 else v * f) * clamp |v * f| b.speed.min b.speed.max := rfl
  rw [hdef, if_neg hw]
  rcases lt_trichotomy v 0 with hneg | hzero | hpos
  · have hwneg : v * f < 0 := mul_neg_of_neg_of_pos hneg hf
    rw [show jsSign (v * f) = -1 by unfold jsSign; rw [if_neg (by linarith), if_pos hwneg]]
    constructor
    · constructor
      · rw [abs_of_nonpos (by nlinarith), neg_mul, neg_neg, one_mul]; exact hs_lo
      · rw [abs_of_nonpos (by nlinarith), neg_mul, neg_neg, one_mul]; exact hs_hi
    · unfold jsSign
      rw [if_neg (by nlinarith), if_pos (by nlinarith), if_neg (by linarith), if_pos hneg]
  · exact absurd hzero hv
  · have hwpos : 0 < v * f := mul_pos hpos hf
    rw [show jsSign (v * f) = 1 by unfold jsSign; rw [if_pos hwpos]]
    constructor
    · constructor
      · rw [one_mul, abs_of_pos hs_pos]; exact hs_lo
      · rw [one_mul, abs_of_pos hs_pos]; exact hs_hi
    · unfold jsSign
      rw [if_pos (by nlinarith), if_pos hpos]

lemma speedEventVx_fold (b : MovementBehavior) (fs : List ℚ) (vx : ℚ)
    (hmin : 0 < b.speed.min) (hlo : b.speed.min ≤ |vx|) (hhi : |vx| ≤ b.speed.max)
    (hf : ∀ f ∈ fs, 0 < f) :
    (b.speed.min ≤ |fs.foldl (fun v f => speedEventVx b f v) vx| ∧
      |fs.foldl (fun v f => speedEventVx b f v) vx| ≤ b.speed.max) ∧
      jsSign (fs.foldl (fun v f => speedEventVx b f v) vx) = jsSign vx := by
  induction fs generalizing vx with
  | nil => exact ⟨⟨hlo, hhi⟩, rfl⟩
  | cons f fs ih =>
    have hle : b.speed.min ≤ b.speed.max := le_trans hlo hhi
    have hstep := speedEventVx_step b f vx hmin hle hlo (hf f (List.mem_cons_self f fs))
    have hrec := ih (speedEventVx b f vx) hstep.1.1 hstep.1.2
      (fun g hg => hf g (List.mem_cons_of_mem f hg))
    exact ⟨hrec.1, hrec.2.trans hstep.2⟩

/-- C9: For every mobile whose speed magnitude starts within its behavior's
speed bounds, any finite sequence of accelerate/decelerate events (each
multiplying the signed velocity by a positive factor, then clamping the
magnitude back into `[speed.min, speed.max]` and restoring the sign, as in
`updateMobile`) keeps the magnitude within `[speed.min, speed.max]` and
preserves the velocity's sign; moreover the clamp is idempotent. -/
theorem speed_events_stay_bounded (b : MovementBehavior) (fs : List ℚ) (vx : ℚ)
    (hmin : 0 < b.speed.min) (hlo : b.speed.min ≤ |vx|) (hhi : |vx| ≤ b.speed.max)
    (hf : ∀ f ∈ fs, 0 < f) :
    ((b.speed.min ≤ |fs.foldl (fun v f => speedEventVx b f v) vx| ∧
      |fs.foldl (fun v f => speedEventVx b f v) vx| ≤ b.speed.max) ∧
      jsSign (fs.foldl (fun v f => speedEventVx b f v) vx) = jsSign vx) ∧
      ∀ v a c, clamp (clamp v a c) a c = clamp v a c :=
  ⟨speedEventVx_fold b fs vx hmin hlo hhi hf, clamp_idem⟩

/-- Witness for C9 at the traffic behavior, factors 1.1 and 0.8, initial
velocity 100. -/
theorem speed_events_stay_bounded_witness :
    (trafficBehavior.speed.min ≤
        |[(1.1 : ℚ), 0.8].foldl (fun v f => speedEventVx trafficBehavior f v) 100| ∧
      |[(1.1 : ℚ), 0.8].foldl (fun v f => speedEventVx trafficBehavior f v) 100| ≤
        trafficBehavior.speed.max) ∧
      jsSign ([(1.1 : ℚ), 0.8].foldl (fun v f => speedEventVx trafficBehavior f v) 100) =
        jsSign 100 :=
  (speed_events_stay_bounded trafficBehavior [1.1, 0.8] 100
    (by norm_num [trafficBehavior]) (by norm_num [trafficBehavior])
    (by norm_num [trafficBehavior])
    (by intro f hf; fin_cases hf <;> norm_num)).1

lemma segDisjoint_symm {s t : Seg} (h : segDisjoint s t) : segDisjoint t s := by
  unfold segDisjoint at *
  rcases h with h | h
  · right; exact h
  · left; exact h

lemma placeAttempts_stackable (rng : ℕ → ℚ) (a : ℕ) (w vpw : ℚ) (occ : List Seg) (i : ℕ) :
    placeAttempts rng (a + 1) true w vpw occ i =
      (true, jsRand (rng i) 0 (max 0 (vpw - w)), occ, i + 1) := by
  simp [placeAttempts]

lemma placeAttempts_nonstackable (rng : ℕ → ℚ) (w vpw : ℚ) (a : ℕ) :
    ∀ (occ : List Seg) (i : ℕ),
      ((placeAttempts rng a false w vpw occ i).1 = false ∧
        (placeAttempts rng a false w vpw occ i).2.2.1 = occ) ∨
      ((placeAttempts rng a false w vpw occ i).1 = true ∧
        (placeAttempts rng a false w vpw occ i).2.2.1 =
          occ ++ [⟨(placeAttempts rng a false w vpw occ i).2.1,
                  (placeAttempts rng a false w vpw occ i).2.1 + w⟩] ∧
        ∀ s ∈ occ, segDisjoint ⟨(placeAttempts rng a false w vpw occ i).2.1,
          (placeAttempts rng a false w vpw occ i).2.1 + w⟩ s) := by
  induction a with
  | zero => intro occ i; left; simp [placeAttempts]
  | succ a ih =>
    intro occ i
    by_cases hov : (occ.any fun s =>
        !(decide (jsRand (rng i) 0 (max 0 (vpw - w)) + w ≤ s.x0) ||
          decide (jsRand (rng i) 0 (max 0 (vpw - w)) ≥ s.x1))) = true
    · have hred : placeAttempts rng (a + 1) false w vpw occ i =
          placeAttempts rng a false w vpw occ (i + 1) := by
        simp only [placeAttempts]
        rw [if_neg Bool.false_ne_true, if_pos hov]
      rw [hred]
      exact ih occ (i + 1)
    · have hred : placeAttempts rng (a + 1) false w vpw occ i =
          (true, jsRand (rng i) 0 (max 0 (vpw - w)),
            occ ++ [⟨jsRand (rng i) 0 (max 0 (vpw - w)),
                     jsRand (rng i) 0 (max 0 (vpw - w)) + w⟩], i + 1) := by
        simp only [placeAttempts]
        rw [if_neg Bool.false_ne_true, if_neg hov]
      rw [hred]
      right
      dsimp only
      refine ⟨rfl, rfl, ?_⟩
      intro s hs
      rw [Bool.not_eq_true, List.any_eq_false] at hov
      have h1 := hov s hs
      unfold segDisjoint
      by_contra hcon
      rcases not_or.mp hcon with ⟨h1a, h1b⟩
      apply h1
      simp only [Bool.not_eq_true', Bool.or_eq_false_iff, decide_eq_false_iff_not]
      exact ⟨h1a, h1b⟩

lemma placeFixedLoop_invariant (env : Env) (rng : ℕ → ℚ) (band : Band) (vp : Viewport) :
    ∀ (keys : List String) (occ : List Seg) (i : ℕ),
      (∀ s ∈ occ, ∀ g ∈ (placeFixedLoop env rng band vp keys occ i).1,
        fixedNonStackable env g = true → segDisjoint (fixedSeg env g) s) ∧
      List.Pairwise (nonStackDisjoint env) (placeFixedLoop env rng band vp keys occ i).1 := by
  intro keys
  induction keys with
  | nil =>
    intro occ i
    constructor
    · intro s _ g hg
      simp [placeFixedLoop] at hg
    · simp [placeFixedLoop]
  | cons key keys ih =>
    intro occ i
    cases hdef : env.fixedElements key with
    | none =>
      have hred : placeFixedLoop env rng band vp (key :: keys) occ i =
          placeFixedLoop env rng band vp keys occ i := by
        simp only [placeFixedLoop, hdef]
      rw [hred]
      exact ih occ i
    | some d =>
      by_cases hp : d.probability ≤ rng i
      · have hred : placeFixedLoop env rng band vp (key :: keys) occ i =
            placeFixedLoop env rng band vp keys occ (i + 1) := by
          simp only [placeFixedLoop, hdef]
          rw [if_pos hp]
        rw [hred]
        exact ih occ (i + 1)
      · cases hst : d.stackable with
        | true =>
          rcases hrec : placeFixedLoop env rng band vp keys occ (i + 1 + 1 + 1) with ⟨rest, occ2, i2⟩
          have hpa : placeAttempts rng 22 d.stackable d.widthPx vp.w occ (i + 1) =
              (true, jsRand (rng (i + 1)) 0 (max 0 (vp.w - d.widthPx)), occ, i + 1 + 1) := by
            rw [hst]
            exact placeAttempts_stackable rng 21 d.widthPx vp.w occ (i + 1)
          have hhead : fixedNonStackable env
              (⟨key, d.emoji, d.fontSize, jsRand (rng (i + 1)) 0 (max 0 (vp.w - d.widthPx)),
                jsRand (rng (i + 1 + 1)) band.yTop (max band.yTop (band.yBottom - d.fontSize)),
                0⟩ : FixedInstance) = false := by
            simp [fixedNonStackable, hdef, hst]
          have hred : placeFixedLoop env rng band vp (key :: keys) occ i =
              (⟨key, d.emoji, d.fontSize, jsRand (rng (i + 1)) 0 (max 0 (vp.w - d.widthPx)),
                jsRand (rng (i + 1 + 1)) band.yTop (max band.yTop (band.yBottom - d.fontSize)),
                0⟩ :: rest, occ2, i2) := by
            simp only [placeFixedLoop, hdef, hpa, hrec, if_neg hp, Bool.not_true,
              if_neg Bool.false_ne_true]
          rw [hred]
          constructor
          · intro s hs g hg
            rcases List.mem_cons.mp hg with hgh | hgt
            · intro hns
              rw [hgh] at hns
              rw [hhead] at hns
              exact absurd hns (by simp)
            · have ha := (ih occ (i + 1 + 1 + 1)).1
              rw [hrec] at ha
              exact ha s hs g hgt
          · refine List.Pairwise.cons ?_ ?_
            · intro g _ h1 _
              rw [hhead] at h1
              exact absurd h1 (by simp)
            · have hb := (ih occ (i + 1 + 1 + 1)).2
              rw [hrec] at hb
              exact hb
        | false =>
          rcases hpares : placeAttempts rng 22 false d.widthPx vp.w occ (i + 1) with ⟨ok, x, occ1, i1⟩
          have hpa := placeAttempts_nonstackable rng d.widthPx vp.w 22 occ (i + 1)
          rw [hpares] at hpa
          dsimp only at hpa
          cases ok with
          | false =>
            rcases hpa with ⟨_, hocc⟩ | ⟨habs, _⟩
            · have hred : placeFixedLoop env rng band vp (key :: keys) occ i =
                  placeFixedLoop env rng band vp keys occ1 i1 := by
                simp [placeFixedLoop, hdef, hp, hst, hpares]
              rw [hred, hocc]
              exact ih occ i1
            · exact absurd habs (by simp)
          | true =>
            rcases hpa with ⟨habs, _⟩ | ⟨_, hocc, hdisj⟩
            · exact absurd habs (by simp)
            · rcases hrec : placeFixedLoop env rng band vp keys occ1 (i1 + 1) with ⟨rest, occ2, i2⟩
              have hheadns : fixedNonStackable env
                  (⟨key, d.emoji, d.fontSize, x,
                    jsRand (rng i1) band.yTop (max band.yTop (band.yBottom - d.fontSize)),
                    0⟩ : FixedInstance) = true := by
                simp [fixedNonStackable, hdef, hst]
              have hheadseg : fixedSeg env
                  (⟨key, d.emoji, d.fontSize, x,
                    jsRand (rng i1) band.yTop (max band.yTop (band.yBottom - d.fontSize)),
                    0⟩ : FixedInstance) = ⟨x, x + d.widthPx⟩ := by
                simp [fixedSeg, hdef]
              have hred : placeFixedLoop env rng band vp (key :: keys) occ i =
                  (⟨key, d.emoji, d.fontSize, x,
                    jsRand (rng i1) band.yTop (max band.yTop (band.yBottom - d.fontSize)),
                    0⟩ :: rest, occ2, i2) := by
                simp [placeFixedLoop, hdef, hp, hst, hpares, hrec]
              rw [hred]
              constructor
              · intro s hs g hg
                rcases List.mem_cons.mp hg with hgh | hgt
                · intro _
                  rw [hgh, hheadseg]
                  exact hdisj s hs
                · have ha := (ih occ1 (i1 + 1)).1
                  rw [hrec] at ha
                  exact ha s (by rw [hocc]; exact List.mem_append_left _ hs) g hgt
              · refine List.Pairwise.cons ?_ ?_
                · intro g hg h1 h2
                  have ha := (ih occ1 (i1 + 1)).1
                  rw [hrec] at ha
                  have hseg : (⟨x, x + d.widthPx⟩ : Seg) ∈ occ1 := by
                    rw [hocc]
                    exact List.mem_append_right _ (List.mem_singleton.mpr rfl)
                  have hgs := ha ⟨x, x + d.widthPx⟩ hseg g hg h2
                  rw [hheadseg]
                  exact segDisjoint_symm hgs
                · have hb := (ih occ1 (i1 + 1)).2
                  rw [hrec] at hb
                  exact hb

/-- C6: For every band and list of fixed type keys, no two non-stackable
instances returned by `placeFixedInBand` have overlapping horizontal
footprint intervals, while a stackable type's first sampled position is
accepted unconditionally by the attempt loop. -/
theorem placeFixedInBand_disjoint_and_stackable :
    (∀ (env : Env) (rng : ℕ → ℚ) (keys : List String) (band : Band) (vp : Viewport) (i : ℕ),
      List.Pairwise (nonStackDisjoint env) (placeFixedInBand env rng keys band vp i).1) ∧
    ∀ (rng : ℕ → ℚ) (a : ℕ) (w vpw : ℚ) (occ : List Seg) (i : ℕ),
      placeAttempts rng (a + 1) true w vpw occ i =
        (true, jsRand (rng i) 0 (max 0 (vpw - w)), occ, i + 1) := by
  constructor
  · intro env rng keys band vp i
    have h := (placeFixedLoop_invariant env rng band vp keys [] i).2
    rcases hl : placeFixedLoop env rng band vp keys [] i with ⟨placed, occ1, i1⟩
    rw [hl] at h
    simpa [placeFixedInBand, hl] using h
  · intro rng a w vpw occ i
    exact placeAttempts_stackable rng a w vpw occ i

/-- C7: For a chaser update step against a stationary player, under the
program's own constraints (the controller clamps `dtMs` to at most 40 ms
via `tickClampDt`, and the shipped `Chasers` table has speeds at most 190
and arrival radii at least 10): outside the arrival radius the chaser moves
straight toward the player by `speed * dtMs/1000`, records that displacement
in `vx`, and its distance to the player becomes `dist - step`, in particular
never increasing; within the arrival radius the position is unchanged and
`vx` is exactly 0.  `hypot` is `Math.hypot`, characterized pointwise at the
two distances the step evaluates. -/
theorem updateChaser_pursuit (hypot : ℚ → ℚ → ℚ) (ch : ChaserInstance)
    (player : PlayerInstance) (dtMs dx dy dist step distAfter : ℚ)
    (hdx : dx = player.x - ch.x) (hdy : dy = player.y - ch.y)
    (hdist : dist = hypot dx dy) (hstep : step = ch.speed * (dtMs / 1000))
    (hdt0 : 0 ≤ dtMs) (hdt40 : dtMs ≤ 40)
    (hsp0 : 0 ≤ ch.speed) (hsp : ch.speed ≤ 190) (hr : 10 ≤ ch.arriveRadius)
    (hd1 : dist ^ 2 = dx ^ 2 + dy ^ 2)
    (hafter : distAfter = hypot (dx - dx / dist * step) (dy - dy / dist * step))
    (ha0 : 0 ≤ distAfter)
    (ha1 : distAfter ^ 2 = (dx - dx / dist * step) ^ 2 + (dy - dy / dist * step) ^ 2) :
    (ch.arriveRadius < dist →
      (updateChaser hypot ch player dtMs).x = ch.x + dx / dist * step ∧
      (updateChaser hypot ch player dtMs).y = ch.y + dy / dist * step ∧
      (updateChaser hypot ch player dtMs).vx = dx / dist * step ∧
      hypot (player.x - (updateChaser hypot ch player dtMs).x)
          (player.y - (updateChaser hypot ch player dtMs).y) = dist - step ∧
      hypot (player.x - (updateChaser hypot ch player dtMs).x)
          (player.y - (updateChaser hypot ch player dtMs).y) ≤ dist) ∧
    (dist ≤ ch.arriveRadius →
      (updateChaser hypot ch player dtMs).x = ch.x ∧
      (updateChaser hypot ch player dtMs).y = ch.y ∧
      (updateChaser hypot ch player dtMs).vx = 0) := by
  subst hdx hdy hdist hstep
  constructor
  · intro hgt
    have hDpos : 0 < hypot (player.x - ch.x) (player.y - ch.y) := by linarith
    have hD0 : hypot (player.x - ch.x) (player.y - ch.y) ≠ 0 := ne_of_gt hDpos
    have hx : (updateChaser hypot ch player dtMs).x =
        ch.x + (player.x - ch.x) / hypot (player.x - ch.x) (player.y - ch.y) *
          (ch.speed * (dtMs / 1000)) := by
      unfold updateChaser
      dsimp only
      rw [if_pos hgt, if_neg hD0]
    have hy : (updateChaser hypot ch player dtMs).y =
        ch.y + (player.y - ch.y) / hypot (player.x - ch.x) (player.y - ch.y) *
          (ch.speed * (dtMs / 1000)) := by
      unfold updateChaser
      dsimp only
      rw [if_pos hgt, if_neg hD0]
    have hvx : (updateChaser hypot ch player dtMs).vx =
        (player.x - ch.x) / hypot (player.x - ch.x) (player.y - ch.y) *
          (ch.speed * (dtMs / 1000)) := by
      unfold updateChaser
      dsimp only
      rw [if_pos hgt, if_neg hD0]
    have hstep0 : 0 ≤ ch.speed * (dtMs / 1000) := mul_nonneg hsp0 (by linarith)
    have hstep_le : ch.speed * (dtMs / 1000) ≤ hypot (player.x - ch.x) (player.y - ch.y) := by
      nlinarith [mul_le_mul hsp hdt40 hdt0 (by norm_num : (0:ℚ) ≤ 190)]
    have hxarg : player.x - (updateChaser hypot ch player dtMs).x =
        player.x - ch.x - (player.x - ch.x) / hypot (player.x - ch.x) (player.y - ch.y) *
          (ch.speed * (dtMs / 1000)) := by
      rw [hx]; ring
    have hyarg : player.y - (updateChaser hypot ch player dtMs).y =
        player.y - ch.y - (player.y - ch.y) / hypot (player.x - ch.x) (player.y - ch.y) *
          (ch.speed * (dtMs / 1000)) := by
      rw [hy]; ring
    have hsq : distAfter ^ 2 =
        (hypot (player.x - ch.x) (player.y - ch.y) - ch.speed * (dtMs / 1000)) ^ 2 := by
      rw [ha1]
      have e1 : player.x - ch.x - (player.x - ch.x) /
          hypot (player.x - ch.x) (player.y - ch.y) * (ch.speed * (dtMs / 1000)) =
          (player.x - ch.x) * ((hypot (player.x - ch.x) (player.y - ch.y) -
            ch.speed * (dtMs / 1000)) / hypot (player.x - ch.x) (player.y - ch.y)) := by
        field_simp
        ring
      have e2 : player.y - ch.y - (player.y - ch.y) /
          hypot (player.x - ch.x) (player.y - ch.y) * (ch.speed * (dtMs / 1000)) =
          (player.y - ch.y) * ((hypot (player.x - ch.x) (player.y - ch.y) -
            ch.speed * (dtMs / 1000)) / hypot (player.x - ch.x) (player.y - ch.y)) := by
        field_simp
        ring
      rw [e1, e2, mul_pow, mul_pow, ← add_mul, ← hd1, div_pow]
      field_simp
      ring
    have heq : distAfter =
        hypot (player.x - ch.x) (player.y - ch.y) - ch.speed * (dtMs / 1000) := by
      rcases sq_eq_sq_iff_eq_or_eq_neg.mp hsq with h | h
      · exact h
      · have hz : distAfter = 0 := by linarith
        linarith
    refine ⟨hx, hy, hvx, ?_, ?_⟩
    · rw [hxarg, hyarg, ← hafter]
      exact heq
    · rw [hxarg, hyarg, ← hafter, heq]
      linarith
  · intro hle
    have hnot : ¬ (hypot (player.x - ch.x) (player.y - ch.y) > ch.arriveRadius) :=
      not_lt.mpr hle
    constructor
    · unfold updateChaser
      dsimp only
      rw [if_neg hnot]
    constructor
    · unfold updateChaser
      dsimp only
      rw [if_neg hnot]
    · unfold updateChaser
      dsimp only
      rw [if_neg hnot]

/-- Witness for C7: the ghost-like chaser at (0,0) with arrival radius 12,
player at (9,12), distance 15, one 40 ms step. -/
theorem updateChaser_pursuit_witness :
    c7Hypot (c7Player.x - (updateChaser c7Hypot c7Chaser c7Player 40).x)
        (c7Player.y - (updateChaser c7Hypot c7Chaser c7Player 40).y) = 15 - 160 * (40 / 1000) ∧
    (updateChaser c7Hypot c7Chaser c7Player 40).vx = 9 / 15 * (160 * (40 / 1000)) := by
  have h := updateChaser_pursuit c7Hypot c7Chaser c7Player 40 9 12 15 (160 * (40 / 1000)) (43 / 5)
    (by norm_num [c7Player, c7Chaser])
    (by norm_num [c7Player, c7Chaser])
    (by norm_num [c7Hypot])
    (by norm_num [c7Chaser])
    (by norm_num) (by norm_num)
    (by norm_num [c7Chaser]) (by norm_num [c7Chaser]) (by norm_num [c7Chaser])
    (by norm_num)
    (by norm_num [c7Hypot])
    (by norm_num)
    (by norm_num)
  have h1 := h.1 (by norm_num [c7Chaser])
  exact ⟨h1.2.2.2.1, h1.2.2.1⟩

lemma fixedParts_append (l1 l2 : List Instance) :
    fixedParts (l1 ++ l2) = fixedParts l1 ++ fixedParts l2 := by
  induction l1 with
  | nil => rfl
  | cons inst rest ih => cases inst <;> simp [fixedParts, ih]

lemma spawnLoop_fixedParts (env : Env) (rng : ℕ → ℚ) (band : Band) (vp : Viewport) (dtMs : ℚ) :
    ∀ (keys : List String) (acc : List Instance) (i : ℕ) (l : List Instance) (i1 : ℕ),
      spawnLoop env rng band vp dtMs keys acc i = .ok (l, i1) →
        fixedParts l = fixedParts acc := by
  intro keys
  induction keys with
  | nil =>
    intro acc i l i1 h
    simp only [spawnLoop, Except.ok.injEq, Prod.mk.injEq] at h
    rw [← h.1]
  | cons key keys ih =>
    intro acc i l i1 h
    cases hdef : env.mobileElements key with
    | none =>
      rw [show spawnLoop env rng band vp dtMs (key :: keys) acc i =
          spawnLoop env rng band vp dtMs keys acc i from by
        simp only [spawnLoop, hdef]] at h
      exact ih acc i l i1 h
    | some d =>
      cases hev : eventThisFrame (rng i) d.ratePerSec dtMs with
      | false =>
        rw [show spawnLoop env rng band vp dtMs (key :: keys) acc i =
            spawnLoop env rng band vp dtMs keys acc (i + 1) from by
          simp [spawnLoop, hdef, hev]] at h
        exact ih acc (i + 1) l i1 h
      | true =>
        cases hcr : createMobileInstance env rng key band vp (i + 1) with
        | error e =>
          rw [show spawnLoop env rng band vp dtMs (key :: keys) acc i = .error e from by
            simp [spawnLoop, hdef, hev, hcr]] at h
          exact absurd h (by simp)
        | ok p =>
          rcases p with ⟨oinst, i2⟩
          cases oinst with
          | some inst =>
            rw [show spawnLoop env rng band vp dtMs (key :: keys) acc i =
                spawnLoop env rng band vp dtMs keys (acc ++ [Instance.mobile inst]) i2 from by
              simp [spawnLoop, hdef, hev, hcr]] at h
            have := ih (acc ++ [Instance.mobile inst]) i2 l i1 h
            rw [this, fixedParts_append]
            simp [fixedParts]
          | none =>
            rw [show spawnLoop env rng band vp dtMs (key :: keys) acc i =
                spawnLoop env rng band vp dtMs keys acc i2 from by
              simp [spawnLoop, hdef, hev, hcr]] at h
            exact ih acc i2 l i1 h

lemma updateInstances_fixedParts (rng : ℕ → ℚ) (dtMs : ℚ) (vp : Viewport) :
    ∀ (l : List Instance) (i : ℕ),
      fixedParts (updateInstances rng dtMs vp l i).1 =
        (fixedParts l).map fun f => { f with tMs := f.tMs + dtMs } := by
  intro l
  induction l with
  | nil => intro i; rfl
  | cons inst rest ih =>
    intro i
    cases inst with
    | fixed f =>
      have hstep : updateInstances rng dtMs vp (Instance.fixed f :: rest) i =
          (Instance.fixed { f with tMs := f.tMs + dtMs } ::
            (updateInstances rng dtMs vp rest i).1,
           (updateInstances rng dtMs vp rest i).2) := rfl
      rw [hstep]
      simp only [fixedParts, List.map_cons]
      rw [ih i]
    | mobile m =>
      have hstep : updateInstances rng dtMs vp (Instance.mobile m :: rest) i =
          (Instance.mobile (updateMobile rng { m with tMs := m.tMs + dtMs } dtMs vp i).1 ::
            (updateInstances rng dtMs vp rest
              (updateMobile rng { m with tMs := m.tMs + dtMs } dtMs vp i).2).1,
           (updateInstances rng dtMs vp rest
              (updateMobile rng { m with tMs := m.tMs + dtMs } dtMs vp i).2).2) := rfl
      rw [hstep]
      simp only [fixedParts]
      exact ih _

lemma filter_fixedParts (l : List Instance) :
    fixedParts (l.filter keepInstance) = fixedParts l := by
  induction l with
  | nil => rfl
  | cons inst rest ih =>
    cases inst with
    | fixed f => simp [List.filter_cons, keepInstance, fixedParts, ih]
    | mobile m =>
      by_cases h : (decide (m.ttlMs > 0)) = true
      · simp [List.filter_cons, keepInstance, h, fixedParts, ih]
      · simp only [List.filter_cons, keepInstance, h, if_false, fixedParts, ih]
        simp [Bool.of_not_eq_true h, fixedParts, ih]

/-- C10: A runtime layer's update leaves every fixed instance's position,
glyph and size unchanged and removes none of them; the only field of a
fixed instance an update modifies is its elapsed-time counter `tMs`. -/
theorem layerUpdate_fixed_unchanged (env : Env) (rng : ℕ → ℚ) (st : RuntimeLayerState)
    (dtMs : ℚ) (band : Band) (vp : Viewport) (i : ℕ) (st1 : RuntimeLayerState) (i1 : ℕ)
    (h : layerUpdate env rng st dtMs band vp i = .ok (st1, i1)) :
    fixedParts st1.instances =
      (fixedParts st.instances).map fun f => { f with tMs := f.tMs + dtMs } := by
  unfold layerUpdate at h
  cases hs : spawnLoop env rng band vp dtMs st.mobileKeys st.instances i with
  | error e =>
    rw [hs] at h
    exact absurd h (by simp [Bind.bind, Except.bind])
  | ok p =>
    rcases p with ⟨withSpawns, i2⟩
    rw [hs] at h
    rcases hu : updateInstances rng dtMs vp withSpawns i2 with ⟨updated, i3⟩
    simp only [Bind.bind, Except.bind, hu, Except.ok.injEq, Prod.mk.injEq] at h
    have hinst : st1.instances = updated.filter keepInstance := by
      rw [← h.1]
    rw [hinst, filter_fixedParts]
    have hup := updateInstances_fixedParts rng dtMs vp withSpawns i2
    rw [hu] at hup
    rw [hup, spawnLoop_fixedParts env rng band vp dtMs st.mobileKeys st.instances i
      withSpawns i2 hs]

/-- Witness for C10: the road-keyed layer with one tree fixed instance, a
100 ms update (both spawn gates fail at random value 1/2). -/
theorem layerUpdate_fixed_unchanged_witness :
    ∃ r, layerUpdate mainEnv halfRng c10Layer 100 ⟨280, 600⟩ ⟨800, 600⟩ 0 = .ok r ∧
      fixedParts r.1.instances = [⟨"dtree", "🌳", 56, 100, 400, 150⟩] := by
  have hl1 : mainEnv.mobileElements "car" = some ⟨"🚗", 32, 1.2, "traffic"⟩ := by
    simp [mainEnv, mobileElementsTable, List.lookup]
  have hl2 : mainEnv.mobileElements "bus" = some ⟨"🚌", 36, 0.5, "traffic"⟩ := by
    simp [mainEnv, mobileElementsTable, List.lookup]
  have hg1 : eventThisFrame (halfRng 0) (1.2 : ℚ) 100 = false := by
    norm_num [eventThisFrame, halfRng]
  have hg2 : eventThisFrame (halfRng 1) (0.5 : ℚ) 100 = false := by
    norm_num [eventThisFrame, halfRng]
  have hs : spawnLoop mainEnv halfRng ⟨280, 600⟩ ⟨800, 600⟩ 100 c10Layer.mobileKeys
      c10Layer.instances 0 = .ok (c10Layer.instances, 2) := by
    show spawnLoop mainEnv halfRng ⟨280, 600⟩ ⟨800, 600⟩ 100 ["car", "bus"]
      c10Layer.instances 0 = .ok (c10Layer.instances, 2)
    rw [show spawnLoop mainEnv halfRng ⟨280, 600⟩ ⟨800, 600⟩ 100 ["car", "bus"]
        c10Layer.instances 0 =
        spawnLoop mainEnv halfRng ⟨280, 600⟩ ⟨800, 600⟩ 100 ["bus"] c10Layer.instances 1 from by
      simp [spawnLoop, hl1, hg1]]
    rw [show spawnLoop mainEnv halfRng ⟨280, 600⟩ ⟨800, 600⟩ 100 ["bus"] c10Layer.instances 1 =
        spawnLoop mainEnv halfRng ⟨280, 600⟩ ⟨800, 600⟩ 100 [] c10Layer.instances 2 from by
      simp [spawnLoop, hl2, hg2]]
    simp [spawnLoop]
  rcases hr : layerUpdate mainEnv halfRng c10Layer 100 ⟨280, 600⟩ ⟨800, 600⟩ 0 with e | r
  · exfalso
    unfold layerUpdate at hr
    rw [hs] at hr
    simp [Bind.bind, Except.bind] at hr
  · refine ⟨r, rfl, ?_⟩
    have h := layerUpdate_fixed_unchanged mainEnv halfRng c10Layer 100 ⟨280, 600⟩ ⟨800, 600⟩ 0
      r.1 r.2 (by rw [hr])
    rw [h]
    norm_num [c10Layer, fixedParts]

lemma levelUpdate_empty (env : Env) (hypot : ℚ → ℚ → ℚ) (rng : ℕ → ℚ)
    (st : RuntimeLevelState) (dtMs : ℚ) (vp : Viewport) (i : ℕ)
    (hl : st.layers = []) (hc : st.chaser = none) :
    levelUpdate env hypot rng st dtMs vp i =
      .ok ({ st with elapsedMs := st.elapsedMs + dtMs, layers := [], player := { st.player with tMs := st.player.tMs + dtMs }, chaser := none }, i, decide (st.elapsedMs + dtMs ≥ st.durationMs)) := by
  unfold levelUpdate
  rw [hl, hc]
  simp [updateLayersLoop, Bind.bind, Except.bind, Option.map]

lemma c5Steps_closed : ∀ n : ℕ, c5Steps n =
    .ok ((⟨"Test", 1000, 100 * n, [], [], ⟨"🧍", 34, 800 * 0.5, 600 * 0.66, 100 * n, 0⟩, none⟩, 0),
         (List.range n).map fun (k : ℕ) => decide ((1000 : ℚ) ≤ 100 * ((k : ℚ) + 1))) := by
  intro n
  induction n with
  | zero =>
    show Except.ok ((c5Level, 0), []) = _
    norm_num [c5Level, createPlayer]
  | succ n ih =>
    show (do
      let (p, flags) ← c5Steps n
      let (st1, i1, e) ← levelUpdate mainEnv (fun _ _ => 0) halfRng p.1 100 ⟨800, 600⟩ p.2
      Except.ok ((st1, i1), flags ++ [e])) = _
    rw [ih]
    simp only [Bind.bind, Except.bind]
    rw [levelUpdate_empty mainEnv (fun _ _ => 0) halfRng _ 100 ⟨800, 600⟩ 0 rfl rfl]
    simp only [Except.ok.injEq, Prod.mk.injEq]
    refine ⟨⟨?_, trivial⟩, ?_⟩
    · have hcast : (100 : ℚ) * n + 100 = 100 * ((n : ℕ) + 1 : ℕ) := by push_cast; ring
      simp [hcast]
    · rw [List.range_succ, List.map_append]
      simp only [List.map_cons, List.map_nil]
      congr 1
      congr 1
      rw [decide_eq_decide]
      constructor <;> intro h <;> linarith

/-- C5: A level's update returns "ended" exactly when the accumulated
elapsed time reaches or exceeds the configured duration, independent of all
entity state (the flag is computed from elapsed time and duration alone);
and a level of duration 1000 ms fed ten consecutive 100 ms updates reports
"ended" exactly on the tenth update and on none of the first nine. -/
theorem levelUpdate_ends_iff (env : Env) (hypot : ℚ → ℚ → ℚ) (rng : ℕ → ℚ)
    (st : RuntimeLevelState) (dtMs : ℚ) (vp : Viewport) (i : ℕ)
    (st1 : RuntimeLevelState) (i1 : ℕ) (ended : Bool)
    (h : levelUpdate env hypot rng st dtMs vp i = .ok (st1, i1, ended)) :
    ((ended = true ↔ st.durationMs ≤ st.elapsedMs + dtMs) ∧
      st1.elapsedMs = st.elapsedMs + dtMs ∧ st1.durationMs = st.durationMs) ∧
      c5TenFlags = List.replicate 9 false ++ [true] := by
  constructor
  · unfold levelUpdate at h
    cases hu : updateLayersLoop env rng dtMs st.bands vp st.layers i with
    | error e =>
      rw [hu] at h
      simp [Bind.bind, Except.bind] at h
    | ok p =>
      rcases p with ⟨layers1, i2⟩
      rw [hu] at h
      simp only [Bind.bind, Except.bind, Except.ok.injEq, Prod.mk.injEq] at h
      obtain ⟨hst, _, hend⟩ := h
      refine ⟨?_, ?_, ?_⟩
      · rw [← hend]
        simp [ge_iff_le]
      · rw [← hst]
      · rw [← hst]
  · have h10 := c5Steps_closed 10
    unfold c5TenFlags
    rw [h10]
    norm_num [List.range_succ, List.replicate]

/-- Witness for C5: the first 100 ms update of the duration-1000 level. -/
theorem levelUpdate_ends_iff_witness :
    ∃ r, levelUpdate mainEnv (fun _ _ => 0) halfRng c5Level 100 ⟨800, 600⟩ 0 = .ok r ∧
      (r.2.2 = true ↔ c5Level.durationMs ≤ c5Level.elapsedMs + 100) := by
  rcases hr : levelUpdate mainEnv (fun _ _ => 0) halfRng c5Level 100 ⟨800, 600⟩ 0 with e | r
  · exfalso
    rw [levelUpdate_empty mainEnv (fun _ _ => 0) halfRng c5Level 100 ⟨800, 600⟩ 0 rfl rfl] at hr
    simp at hr
  · refine ⟨r, rfl, ?_⟩
    exact ((levelUpdate_ends_iff mainEnv (fun _ _ => 0) halfRng c5Level 100 ⟨800, 600⟩ 0
      r.1 r.2.1 r.2.2 (by rw [hr])).1).1

lemma mobPause_ttlMs (rng : ℕ → ℚ) (a : MobileInstance) (dt : ℚ) (k : ℕ) :
    (mobPause rng a dt k).1.ttlMs = a.ttlMs := by
  unfold mobPause; dsimp only; split_ifs <;> rfl

lemma mobPause_pos (rng : ℕ → ℚ) (a : MobileInstance) (dt : ℚ) (k : ℕ)
    (hp : 0 < a.pausedMs) :
    mobPause rng a dt k = ({ a with pausedMs := a.pausedMs - dt }, k) := by
  unfold mobPause
  rw [if_pos hp]

lemma mobSpeed_pausedMs (rng : ℕ → ℚ) (a : MobileInstance) (dt : ℚ) (k : ℕ) :
    (mobSpeed rng a dt k).1.pausedMs = a.pausedMs := by
  unfold mobSpeed; dsimp only; split_ifs <;> rfl

lemma mobSpeed_ttlMs (rng : ℕ → ℚ) (a : MobileInstance) (dt : ℚ) (k : ℕ) :
    (mobSpeed rng a dt k).1.ttlMs = a.ttlMs := by
  unfold mobSpeed; dsimp only; split_ifs <;> rfl

lemma mobTurn_pausedMs (rng : ℕ → ℚ) (a : MobileInstance) (dt : ℚ) (k : ℕ) :
    (mobTurn rng a dt k).1.pausedMs = a.pausedMs := by
  unfold mobTurn; split_ifs <;> rfl

lemma mobTurn_ttlMs (rng : ℕ → ℚ) (a : MobileInstance) (dt : ℚ) (k : ℕ) :
    (mobTurn rng a dt k).1.ttlMs = a.ttlMs := by
  unfold mobTurn; split_ifs <;> rfl

lemma mobIntegrate_pausedMs (a : MobileInstance) (dt : ℚ) :
    (mobIntegrate a dt).pausedMs = a.pausedMs := by
  unfold mobIntegrate; split_ifs <;> rfl

lemma mobIntegrate_ttlMs (a : MobileInstance) (dt : ℚ) :
    (mobIntegrate a dt).ttlMs = a.ttlMs := by
  unfold mobIntegrate; split_ifs <;> rfl

lemma mobBounds_pausedMs (rng : ℕ → ℚ) (a : MobileInstance) (vp : Viewport) (k : ℕ) :
    (mobBounds rng a vp k).1.pausedMs = a.pausedMs := by
  unfold mobBounds; dsimp only; split_ifs <;> rfl

lemma mobBounds_ttlMs (rng : ℕ → ℚ) (a : MobileInstance) (vp : Viewport) (k : ℕ) :
    (mobBounds rng a vp k).1.ttlMs = a.ttlMs ∨ (mobBounds rng a vp k).1.ttlMs = 0 := by
  unfold mobBounds
  dsimp only
  split_ifs <;> first | exact Or.inl rfl | exact Or.inr rfl

lemma updateMobile_ttlMs (rng : ℕ → ℚ) (it : MobileInstance) (dt : ℚ) (vp : Viewport) (i : ℕ) :
    (updateMobile rng it dt vp i).1.ttlMs = it.ttlMs - dt ∨
      (updateMobile rng it dt vp i).1.ttlMs = 0 := by
  unfold updateMobile
  dsimp only
  generalize hs2 : mobPause rng (mobTick it dt) dt i = s2
  generalize hs3 : mobSpeed rng s2.1 dt s2.2 = s3
  generalize hs4 : mobTurn rng s3.1 dt s3.2 = s4
  generalize hs5 : mobIntegrate s4.1 dt = s5
  rcases mobBounds_ttlMs rng s5 vp s4.2 with h | h
  · left
    rw [h, ← hs5, mobIntegrate_ttlMs, ← hs4, mobTurn_ttlMs, ← hs3, mobSpeed_ttlMs, ← hs2,
      mobPause_ttlMs]
    rfl
  · right
    exact h

lemma updateMobile_pausedMs (rng : ℕ → ℚ) (it : MobileInstance) (dt : ℚ) (vp : Viewport)
    (i : ℕ) (hp : 0 < it.pausedMs) :
    (updateMobile rng it dt vp i).1.pausedMs = it.pausedMs - dt := by
  unfold updateMobile
  dsimp only
  rw [mobBounds_pausedMs, mobIntegrate_pausedMs, mobTurn_pausedMs, mobSpeed_pausedMs,
    mobPause_pos rng (mobTick it dt) dt i hp]
  rfl

/-- Counterexample to C3 as stated: a mobile 10 ms into a pause with 5 ms of
time-to-live, advanced by 40 ms, ends the advance with both time-to-live and
pause-remaining strictly negative — `updateMobile` never clamps either. -/
theorem mobile_ttl_pause_counterexample :
    (updateMobile halfRng c3Mobile 40 ⟨800, 600⟩ 0).1.ttlMs < 0 ∧
    (updateMobile halfRng c3Mobile 40 ⟨800, 600⟩ 0).1.pausedMs < 0 := by
  constructor
  · norm_num [updateMobile, mobTick, mobPause, mobSpeed, mobTurn, mobIntegrate, mobBounds,
      eventThisFrame, halfRng, c3Mobile, trafficBehavior, clamp, jsRand]
  · have h := updateMobile_pausedMs halfRng c3Mobile 40 ⟨800, 600⟩ 0
      (by norm_num [c3Mobile])
    rw [h]
    norm_num [c3Mobile]

/-- C3 (amended): an advance decrements time-to-live by `dtMs` (unless the
boundary policy forces it to exactly 0) and decrements a running pause by
`dtMs`, in both cases without any clamping, so both fields can become
negative; an instance whose time-to-live is ≤ 0 is removed by the owning
layer's cull pass — after a layer update every mobile instance still in the
layer has strictly positive time-to-live, so an expired instance is never
acted on again. -/
theorem updateMobile_no_clamp_and_cull (rng rng2 : ℕ → ℚ) (it : MobileInstance) (dtMs : ℚ)
    (vp : Viewport) (i : ℕ) (env : Env) (st : RuntimeLayerState) (band : Band)
    (vp2 : Viewport) (j : ℕ) (st1 : RuntimeLayerState) (j1 : ℕ)
    (hp : 0 < it.pausedMs)
    (hl : layerUpdate env rng2 st dtMs band vp2 j = .ok (st1, j1)) :
    ((updateMobile rng it dtMs vp i).1.ttlMs = it.ttlMs - dtMs ∨
      (updateMobile rng it dtMs vp i).1.ttlMs = 0) ∧
    (updateMobile rng it dtMs vp i).1.pausedMs = it.pausedMs - dtMs ∧
    ∀ inst ∈ st1.instances, ∀ m, inst = Instance.mobile m → 0 < m.ttlMs := by
  refine ⟨updateMobile_ttlMs rng it dtMs vp i, updateMobile_pausedMs rng it dtMs vp i hp, ?_⟩
  intro inst hin m hm
  unfold layerUpdate at hl
  cases hs : spawnLoop env rng2 band vp2 dtMs st.mobileKeys st.instances j with
  | error e =>
    rw [hs] at hl
    exact absurd hl (by simp [Bind.bind, Except.bind])
  | ok p =>
    rcases p with ⟨withSpawns, i2⟩
    rw [hs] at hl
    rcases hu : updateInstances rng2 dtMs vp2 withSpawns i2 with ⟨updated, i3⟩
    simp only [Bind.bind, Except.bind, hu, Except.ok.injEq, Prod.mk.injEq] at hl
    have hinst : st1.instances = updated.filter keepInstance := by rw [← hl.1]
    rw [hinst] at hin
    have hk := (List.mem_filter.mp hin).2
    rw [hm] at hk
    simpa [keepInstance] using hk

/-- Witness for C3 (amended): the paused mobile of the counterexample, and a
layer update of the mountains-keyed layer with one fixed instance. -/
theorem updateMobile_no_clamp_and_cull_witness :
    ∃ r, layerUpdate mainEnv halfRng c3Layer 40 ⟨740, 1000⟩ ⟨800, 1000⟩ 0 = .ok r ∧
      ((updateMobile halfRng c3Mobile 40 ⟨800, 600⟩ 0).1.pausedMs = c3Mobile.pausedMs - 40 ∧
        ∀ inst ∈ r.1.instances, ∀ m, inst = Instance.mobile m → 0 < m.ttlMs) := by
  have hsp : spawnLoop mainEnv halfRng ⟨740, 1000⟩ ⟨800, 1000⟩ 40 c3Layer.mobileKeys
      c3Layer.instances 0 = .ok (c3Layer.instances, 0) := by
    simp [spawnLoop, c3Layer]
  rcases hr : layerUpdate mainEnv halfRng c3Layer 40 ⟨740, 1000⟩ ⟨800, 1000⟩ 0 with e | r
  · exfalso
    unfold layerUpdate at hr
    rw [hsp] at hr
    simp [Bind.bind, Except.bind] at hr
  · refine ⟨r, rfl, ?_⟩
    have h := updateMobile_no_clamp_and_cull halfRng halfRng c3Mobile 40 ⟨800, 600⟩ 0 mainEnv
      c3Layer ⟨740, 1000⟩ ⟨800, 1000⟩ 0 r.1 r.2 (by norm_num [c3Mobile]) (by rw [hr])
    exact ⟨h.2.1, h.2.2⟩

/-- C4 (amended): band vertical extents are computed once at level start and
cached in the `bands` map; a frame's layer updates consult the cache via
`levelBandFor`, the update never modifies the map, and the band looked up
for a name present in the cache does not depend on the frame's viewport
(the current viewport only supplies the fallback band for missing names). -/
theorem levelUpdate_bands_cached (env : Env) (hypot : ℚ → ℚ → ℚ) (rng : ℕ → ℚ)
    (st : RuntimeLevelState) (dtMs : ℚ) (vp : Viewport) (i : ℕ)
    (r : RuntimeLevelState × ℕ × Bool)
    (bands : List (String × Band)) (name : String) (vpa vpb : Viewport)
    (h : levelUpdate env hypot rng st dtMs vp i = .ok r)
    (hs : (bands.lookup name).isSome = true) :
    r.1.bands = st.bands ∧ levelBandFor bands name vpa = levelBandFor bands name vpb := by
  constructor
  · unfold levelUpdate at h
    cases hu : updateLayersLoop env rng dtMs st.bands vp st.layers i with
    | error e =>
      rw [hu] at h
      exact absurd h (by simp [Bind.bind, Except.bind])
    | ok p =>
      rcases p with ⟨layers1, i2⟩
      rw [hu] at h
      simp only [Bind.bind, Except.bind, Except.ok.injEq] at h
      rw [← h]
  · unfold levelBandFor
    cases hlk : bands.lookup name with
    | none =>
      rw [hlk] at hs
      simp at hs
    | some b => rfl

lemma c4_levelStart_eq : levelStart mainEnv halfRng c4LevelDef ⟨800, 1000⟩ 0 =
    .ok (⟨"T", 5000, 0, [(10, ⟨"mountains", some 260, [], ["mountain"], []⟩)],
         [("mountains", ⟨740, 1000⟩)], ⟨"🧍", 34, 800 * 0.5, 1000 * 0.66, 0, 0⟩, none⟩, 1) := by
  have e1 : (1000 : ℚ) - 260 = 740 := by norm_num
  have e2 : max (0 : ℚ) 740 = 740 := by norm_num
  have e3 : (0.35 : ℚ) ≤ 2⁻¹ := by norm_num
  simp [levelStart, c4LevelDef, sortByZ, insertByZ, resolveLayers, mkRuntimeLayer,
    computeBandsInit, mapSet, layerInit, placeFixedInBand, placeFixedLoop, mainEnv,
    layersTable, fixedElementsTable, playersTable, List.lookup, Bind.bind, Except.bind,
    halfRng, createPlayer, Except.map, e1, e2, e3]

/-- Counterexample to C4 as stated: after starting a single-layer level at a
1000-pixel-tall viewport, a frame whose viewport is only 500 pixels tall
still receives the band cached at start (740..1000) from the bands map used
by `RuntimeLevel.update`, not the band that re-deriving from that frame's
viewport would give (240..500). -/
theorem c4_counterexample :
    levelBandFor c4State.bands "mountains" ⟨800, 500⟩ = ⟨740, 1000⟩ ∧
    (computeBandsInit mainEnv halfRng ⟨800, 500⟩ 1 c4State.layers 500 [] 0).2.1.lookup
      "mountains" = some ⟨240, 500⟩ ∧
    Band.mk 740 1000 ≠ Band.mk 240 500 := by
  have hc4 : c4State = ⟨"T", 5000, 0, [(10, ⟨"mountains", some 260, [], ["mountain"], []⟩)],
      [("mountains", ⟨740, 1000⟩)], ⟨"🧍", 34, 800 * 0.5, 1000 * 0.66, 0, 0⟩, none⟩ := by
    unfold c4State
    rw [c4_levelStart_eq]
  refine ⟨?_, ?_, ?_⟩
  · rw [hc4]
    simp [levelBandFor, List.lookup]
  · rw [hc4]
    have e1 : (500 : ℚ) - 260 = 240 := by norm_num
    have e2 : max (0 : ℚ) 240 = 240 := by norm_num
    have e3 : (0.35 : ℚ) ≤ 2⁻¹ := by norm_num
    simp [computeBandsInit, mapSet, layerInit, placeFixedInBand, placeFixedLoop, mainEnv,
      fixedElementsTable, List.lookup, halfRng, e1, e2, e3]
  · norm_num [Band.mk.injEq]

/-- Witness for C4 (amended): a 40 ms update of the empty-layer level, and a
one-entry bands map looked up at two different viewports. -/
theorem levelUpdate_bands_cached_witness :
    ∃ r, levelUpdate mainEnv (fun _ _ => 0) zeroRng c5Level 40 ⟨800, 600⟩ 0 = .ok r ∧
      (r.1.bands = c5Level.bands ∧
        levelBandFor [("x", ⟨0, 1⟩)] "x" ⟨1, 2⟩ = levelBandFor [("x", ⟨0, 1⟩)] "x" ⟨3, 4⟩) := by
  rcases hr : levelUpdate mainEnv (fun _ _ => 0) zeroRng c5Level 40 ⟨800, 600⟩ 0 with e | r
  · exfalso
    rw [levelUpdate_empty mainEnv (fun _ _ => 0) zeroRng c5Level 40 ⟨800, 600⟩ 0 rfl rfl] at hr
    simp at hr
  · exact ⟨r, rfl, levelUpdate_bands_cached mainEnv (fun _ _ => 0) zeroRng c5Level 40 ⟨800, 600⟩ 0
      r [("x", ⟨0, 1⟩)] "x" ⟨1, 2⟩ ⟨3, 4⟩ hr (by simp)⟩

/-- C2 (amended): for a single non-stackable type with placement probability
1.0 whose footprint is at least as wide as the viewport, `placeFixedInBand`
does not return an empty list: with the `occupied` list empty the very first
attempt is accepted (there is no previously placed segment to overlap), and
the type is placed at x = 0 because the sampling interval collapses to a
point; no error is raised. -/
theorem placeFixed_wide_type_placed (env : Env) (rng : ℕ → ℚ) (k : String)
    (d : FixedElementDef) (band : Band) (vp : Viewport) (i : ℕ)
    (hd : env.fixedElements k = some d) (hst : d.stackable = false)
    (hp : d.probability = 1) (hr : rng i < 1) (hw : vp.w ≤ d.widthPx) :
    (placeFixedInBand env rng [k] band vp i).1 =
      [⟨k, d.emoji, d.fontSize, 0,
        jsRand (rng (i + 2)) band.yTop (max band.yTop (band.yBottom - d.fontSize)), 0⟩] := by
  have hmax : max 0 (vp.w - d.widthPx) = 0 := max_eq_left (sub_nonpos.mpr hw)
  have hx : jsRand (rng (i + 1)) 0 (max 0 (vp.w - d.widthPx)) = 0 := by
    rw [hmax]
    unfold jsRand
    ring
  have hpa : placeAttempts rng 22 false d.widthPx vp.w [] (i + 1) =
      (true, 0, [⟨0, 0 + d.widthPx⟩], i + 1 + 1) := by
    show placeAttempts rng (21 + 1) false d.widthPx vp.w [] (i + 1) = _
    simp only [placeAttempts]
    rw [if_neg Bool.false_ne_true]
    simp [hx]
  have hgate : ¬ (d.probability ≤ rng i) := by
    rw [hp]
    exact not_le.mpr hr
  unfold placeFixedInBand
  simp only [placeFixedLoop, hd]
  rw [if_neg hgate, hst, hpa]
  simp [placeFixedLoop]

/-- Counterexample to C2 as stated: a single non-stackable 140-pixel-wide
type with probability 1.0 in a 100-pixel-wide viewport is placed (the
returned list is not empty). -/
theorem c2_counterexample :
    (placeFixedInBand c2Env zeroRng ["wide"] ⟨0, 100⟩ ⟨100, 600⟩ 0).1 ≠ [] := by
  have hx : jsRand (zeroRng 1) 0 (max 0 ((100 : ℚ) - 140)) = 0 := by
    norm_num [jsRand, zeroRng]
  have hpa : placeAttempts zeroRng 22 false 140 100 [] 1 = (true, 0, [⟨0, 0 + 140⟩], 2) := by
    show placeAttempts zeroRng (21 + 1) false 140 100 [] 1 = _
    simp only [placeAttempts]
    rw [if_neg Bool.false_ne_true]
    simp [hx]
  have hgate : ¬ ((1 : ℚ) ≤ zeroRng 0) := by norm_num [zeroRng]
  simp [placeFixedInBand, placeFixedLoop, c2Env, hgate, hpa]

/-- Witness for C2 (amended) at the concrete wide-type environment. -/
theorem placeFixed_wide_type_placed_witness :
    (placeFixedInBand c2Env zeroRng ["wide"] ⟨0, 100⟩ ⟨100, 600⟩ 0).1 =
      [⟨"wide", "🏭", 64, 0, jsRand (zeroRng 2) 0 (max 0 (100 - 64)), 0⟩] := by
  have h := placeFixed_wide_type_placed c2Env zeroRng "wide" ⟨"🏭", 64, 1, false, 140⟩
    ⟨0, 100⟩ ⟨100, 600⟩ 0 (by simp [c2Env]) rfl rfl (by norm_num [zeroRng]) (by norm_num)
  simpa using h

lemma mem_insertByZ (p q : String × ℚ) (l : List (String × ℚ)) :
    q ∈ insertByZ p l ↔ q = p ∨ q ∈ l := by
  induction l with
  | nil => simp [insertByZ]
  | cons a rest ih =>
    unfold insertByZ
    split_ifs <;> simp [ih] <;> tauto

lemma mem_sortByZ (q : String × ℚ) (l : List (String × ℚ)) : q ∈ sortByZ l ↔ q ∈ l := by
  suffices h : ∀ acc, q ∈ l.foldl (fun acc p => insertByZ p acc) acc ↔ q ∈ acc ∨ q ∈ l by
    simpa [sortByZ] using h []
  induction l with
  | nil => intro acc; simp
  | cons p rest ih =>
    intro acc
    rw [List.foldl_cons, ih]
    simp [mem_insertByZ]
    tauto

lemma resolveLayers_error (env : Env) :
    ∀ (refs : List (String × ℚ)) (nm : String) (z : ℚ),
      (nm, z) ∈ refs → env.layers nm = none → resolveLayers env refs = .error () := by
  intro refs
  induction refs with
  | nil =>
    intro nm z h _
    simp at h
  | cons p rest ih =>
    intro nm z hmem hnone
    rcases p with ⟨n1, z1⟩
    rcases List.mem_cons.mp hmem with he | ht
    · have hn : n1 = nm := by
        injection he with h1 h2
        exact h1.symm
      rw [show resolveLayers env ((n1, z1) :: rest) =
          (match env.layers n1 with
           | none => .error ()
           | some d => (resolveLayers env rest).map fun ls => (z1, mkRuntimeLayer d) :: ls)
          from rfl, hn, hnone]
    · cases hl : env.layers n1 with
      | none => simp [resolveLayers, hl]
      | some d => simp [resolveLayers, hl, ih nm z ht hnone, Except.map]

/-- C1 (amended): an unresolved fixed-element key is skipped silently by
`placeFixedInBand`'s loop, an unresolved mobile-element key is skipped
silently by the spawn loop and makes `createMobileInstance` return null,
and in both cases the rest of the simulation state is unaffected; but an
unresolved BEHAVIOR reference makes `createMobileInstance` throw a
TypeError (reading `.speed` of `undefined`), and an unresolved LAYER key
makes `RuntimeLevel.start` throw a TypeError (`new RuntimeLayer(undefined)`
reads `.name`): those two references are not silently skipped. -/
theorem unresolved_reference_handling (env : Env) (rng : ℕ → ℚ) (kf km kb : String)
    (keys : List String) (occ : List Seg) (band : Band) (vp : Viewport) (i : ℕ)
    (acc : List Instance) (dtMs : ℚ) (d : MobileElementDef) (ld : LevelDef)
    (nm : String) (z : ℚ)
    (hf : env.fixedElements kf = none)
    (hm : env.mobileElements km = none)
    (hbdef : env.mobileElements kb = some d)
    (hbeh : resolveBehavior env d.behavior = none)
    (hlv : (nm, z) ∈ ld.layers)
    (hlk : env.layers nm = none) :
    placeFixedLoop env rng band vp (kf :: keys) occ i =
      placeFixedLoop env rng band vp keys occ i ∧
    spawnLoop env rng band vp dtMs (km :: keys) acc i =
      spawnLoop env rng band vp dtMs keys acc i ∧
    createMobileInstance env rng km band vp i = .ok (none, i) ∧
    createMobileInstance env rng kb band vp i = .error () ∧
    levelStart env rng ld vp i = .error () := by
  refine ⟨?_, ?_, ?_, ?_, ?_⟩
  · simp only [placeFixedLoop, hf]
  · simp only [spawnLoop, hm]
  · simp only [createMobileInstance, hm]
  · simp only [createMobileInstance, hbdef, hbeh]
  · have hres : resolveLayers env (sortByZ ld.layers) = .error () :=
      resolveLayers_error env (sortByZ ld.layers) nm z ((mem_sortByZ _ _).mpr hlv) hlk
    simp [levelStart, hres, Bind.bind, Except.bind]

/-- Counterexample to C1 as stated: starting a level whose layer list
references the key "missing", absent from the shipped `Layers` table, does
not silently skip the key — `RuntimeLevel.start` throws. -/
theorem c1_counterexample :
    levelStart mainEnv halfRng c1BadLevel ⟨800, 600⟩ 0 = .error () := by
  simp [levelStart, c1BadLevel, sortByZ, insertByZ, resolveLayers, mainEnv, layersTable,
    List.lookup, Bind.bind, Except.bind]

/-- Witness for C1 (amended) at an environment with one dangling behavior
reference and an empty layers table. -/
theorem unresolved_reference_handling_witness :
    placeFixedLoop c1Env zeroRng ⟨0, 100⟩ ⟨100, 600⟩ ["zzz"] [] 0 =
      placeFixedLoop c1Env zeroRng ⟨0, 100⟩ ⟨100, 600⟩ [] [] 0 ∧
    spawnLoop c1Env zeroRng ⟨0, 100⟩ ⟨100, 600⟩ 16 ["zzz"] [] 0 =
      spawnLoop c1Env zeroRng ⟨0, 100⟩ ⟨100, 600⟩ 16 [] [] 0 ∧
    createMobileInstance c1Env zeroRng "zzz" ⟨0, 100⟩ ⟨100, 600⟩ 0 = .ok (none, 0) ∧
    createMobileInstance c1Env zeroRng "ghostcar" ⟨0, 100⟩ ⟨100, 600⟩ 0 = .error () ∧
    levelStart c1Env zeroRng c1WitnessLevel ⟨100, 600⟩ 0 = .error () :=
  unresolved_reference_handling c1Env zeroRng "zzz" "zzz" "ghostcar" [] [] ⟨0, 100⟩
    ⟨100, 600⟩ 0 [] 16 ⟨"🚗", 32, 1.2, "nope"⟩ c1WitnessLevel "missing" 10
    (by simp [c1Env]) (by simp [c1Env]) (by simp [c1Env])
    (by simp [resolveBehavior, c1Env]) (by simp [c1WitnessLevel]) (by simp [c1Env])
